import Mathlib

/-!
# HDF5DataLayer (caffe/layers/hdf5_data_layer.cpp)

A shallow embedding of the HDF5 data layer: the loader `LoadHDF5FileData`,
the setup `LayerSetUp` and the per-batch fill `Forward_cpu`.

Conventions of the embedding.

* The layer object is an explicit record `HDF5DataLayer`; every member
  function takes the record and returns the updated record.
* The outside world (the manifest text file and the HDF5 files) is an
  explicit `FileSystem` value.
* A `CHECK` that fails is `Failure.fatal`; an access that C++ leaves
  undefined (index past the end of a vector, read or write past the end of
  a buffer, division by zero) is `Failure.undefined`.
* The parameter `batch_size` is an unsigned 32-bit field that the code
  narrows to `const int` (lines 91 and 112); `to_int` is that narrowing, so
  the `batch_size` of the code is an integer that is negative for parameter
  values from 2^31 on. The leading dimension `num` of a blob is an integer
  for the same reason: it is what `Reshape` receives.
* The cursors, the file count and the per-row element counts are natural
  numbers; they index arrays held in memory.
* `Dtype` values are only ever copied, never computed with, so they are
  modelled by integers.
-/

namespace caffe

/-- The element type of a blob; elements are copied verbatim. -/
abbrev Dtype := Int

/-- How a call can fail to return. -/
inductive Failure where
  | fatal
  | undefined
  deriving DecidableEq, Repr

/-- Modelled from the spec: Blob, the dense array container (caffe/blob.hpp is
not part of the sources). A shape vector (num, channels, height, width) and
contiguous row-major storage. The leading dimension `num` is the `int` that
`Reshape` is given; the other three come from loaded arrays and are natural
numbers. -/
structure Blob where
  num : Int
  channels : Nat
  height : Nat
  width : Nat
  data : List Dtype
  deriving DecidableEq, Repr

/-- A default-constructed blob: all dimensions zero, no storage. -/
def Blob.empty : Blob := ⟨0, 0, 0, 0, []⟩

/-- Number of elements described by the shape. -/
def Blob.count (b : Blob) : Int := b.num * b.channels * b.height * b.width

/-- Modelled from the spec: Blob::Reshape. Sets the shape; the storage is
kept when it is large enough and replaced by fresh zeroed storage of `count`
elements otherwise. The shape is recorded as given, also when `num` is
negative; no storage is allocated for a negative count. -/
def Blob.Reshape (b : Blob) (num : Int) (channels height width : Nat) : Blob :=
  { num := num, channels := channels, height := height, width := width,
    data := if (b.data.length : Int) < num * channels * height * width
            then List.replicate (num * channels * height * width).toNat 0
            else b.data }

/-- One named array dataset of an HDF5 file: its dimensions and its
row-major contents. -/
structure H5Dataset where
  dims : List Nat
  data : List Dtype
  deriving DecidableEq, Repr

/-- An HDF5 file that can be opened: its named datasets, and whether
`H5Fclose` on it succeeds. -/
structure H5File where
  datasets : List (String × H5Dataset)
  close_ok : Bool
  deriving DecidableEq, Repr

/-- The outside world: `ifstream s` is the text of the file `s` when it can be
opened, `H5Fopen s` is the HDF5 file at `s` when it can be opened. -/
structure FileSystem where
  ifstream : String → Option String
  H5Fopen : String → Option H5File

/-- The two fields of `hdf5_data_param` the layer reads; `batch_size` is the
value of the unsigned 32-bit field. -/
structure HDF5DataParameter where
  source : String
  batch_size : Nat
  deriving DecidableEq, Repr

/-- The conversion of an unsigned 32-bit value to `int`, as in
`const int batch_size = ...batch_size()` (lines 91 and 112): the value modulo
2^32, read as a two's complement number. -/
def to_int (v : Nat) : Int :=
  if v % 4294967296 < 2147483648 then ((v % 4294967296 : Nat) : Int)
  else ((v % 4294967296 : Nat) : Int) - 4294967296

/-- The member variables of `HDF5DataLayer`. -/
structure HDF5DataLayer where
  layer_param_ : HDF5DataParameter
  hdf_filenames_ : List String
  num_files_ : Nat
  current_file_ : Nat
  current_row_ : Nat
  data_blob_ : Blob
  label_blob_ : Blob
  sample_weight_blob_ : Blob
  deriving DecidableEq, Repr

/-- Modelled from the spec: the blob a dataset is read into. The leading
dimension is the row count, missing trailing dimensions are 1, and the storage
holds the dataset's contents. -/
def dataset_blob (ds : H5Dataset) : Blob :=
  { num := ((ds.dims.getD 0 0 : Nat) : Int),
    channels := ds.dims.getD 1 1,
    height := ds.dims.getD 2 1,
    width := ds.dims.getD 3 1,
    data := ds.data }

/-- Modelled from the spec: hdf5_load_nd_dataset (caffe/util/io.cpp is not
part of the sources). The named dataset must be present and its rank must lie
in `[min_dim, max_dim]`, otherwise the call is fatal; on success the blob is
the one the dataset is read into. -/
def hdf5_load_nd_dataset (file : H5File) (dataset_name : String)
    (min_dim max_dim : Nat) : Except Failure Blob :=
  match file.datasets.lookup dataset_name with
  | none => .error .fatal
  | some ds =>
    if min_dim ≤ ds.dims.length ∧ ds.dims.length ≤ max_dim then
      .ok (dataset_blob ds)
    else .error .fatal

/-- `HDF5DataLayer::LoadHDF5FileData`, lines 28-62. -/
def LoadHDF5FileData (fs : FileSystem) (self : HDF5DataLayer) (filename : String)
    (n_blobs : Nat) : Except Failure HDF5DataLayer :=
  match fs.H5Fopen filename with
  | none => .ok self
  | some file_id => do
    let self ←
      if n_blobs ≥ 1 then do
        let b ← hdf5_load_nd_dataset file_id "data" 2 4
        pure { self with data_blob_ := b }
      else pure self
    let self ←
      if n_blobs ≥ 2 then do
        let b ← hdf5_load_nd_dataset file_id "label" 1 2
        let self := { self with label_blob_ := b }
        if self.data_blob_.num = self.label_blob_.num then pure self
        else .error .fatal
      else pure self
    let self ←
      if n_blobs ≥ 3 then do
        let b ← hdf5_load_nd_dataset file_id "sample_weight" 1 2
        let self := { self with sample_weight_blob_ := b }
        if self.data_blob_.num = self.sample_weight_blob_.num then pure self
        else .error .fatal
      else pure self
    if file_id.close_ok then pure self else .error .fatal

/-- The whitespace characters of `std::isspace` in the "C" locale. -/
def isspace (c : Char) : Bool :=
  c = ' ' || c = '\t' || c = '\n' || c = '\x0b' || c = '\x0c' || c = '\r'

/-- One `source_file >> line`: skip leading whitespace, then read characters up
to the next whitespace or the end of the stream. Fails (`none`) when no
character is extracted. Returns the token and the rest of the stream. -/
def extract (stream : List Char) : Option (List Char × List Char) :=
  match stream.dropWhile isspace with
  | [] => none
  | c :: cs => some ((c :: cs).takeWhile (fun x => !isspace x),
                     (c :: cs).dropWhile (fun x => !isspace x))

/-- The loop `while (source_file >> line) hdf_filenames_.push_back(line)`,
lines 74-76; `fuel` bounds the number of iterations. -/
def read_filenames : Nat → List Char → List String → List String
  | 0, _, acc => acc
  | fuel + 1, stream, acc =>
    match extract stream with
    | none => acc
    | some (line, rest) => read_filenames fuel rest (acc ++ [String.mk line])

/-- Lines 68-81 of `LayerSetUp`: parse the manifest into `hdf_filenames_`, set
`num_files_` and `current_file_`. Every extraction consumes at least one
character, so the length of the text bounds the number of iterations. -/
def LayerSetUp_filenames (fs : FileSystem) (self : HDF5DataLayer) : HDF5DataLayer :=
  let self := { self with hdf_filenames_ := [] }
  let self :=
    match fs.ifstream self.layer_param_.source with
    | some text =>
      { self with hdf_filenames_ :=
          read_filenames text.data.length text.data self.hdf_filenames_ }
    | none => self
  let self := { self with num_files_ := self.hdf_filenames_.length }
  { self with current_file_ := 0 }

/-- Reshape of the output buffer `(*top)[g]`. -/
def reshape_top (top : List Blob) (g : Nat) (num : Int) (channels height width : Nat) :
    Except Failure (List Blob) :=
  match top[g]? with
  | none => .error .undefined
  | some t => .ok (top.set g (t.Reshape num channels height width))

/-- `HDF5DataLayer::LayerSetUp`, lines 65-105. -/
def LayerSetUp (fs : FileSystem) (self : HDF5DataLayer) (top : List Blob) :
    Except Failure (HDF5DataLayer × List Blob) := do
  let self := LayerSetUp_filenames fs self
  let n_blobs := top.length
  let self ←
    match self.hdf_filenames_[self.current_file_]? with
    | none => .error .undefined
    | some filename => LoadHDF5FileData fs self filename n_blobs
  let self := { self with current_row_ := 0 }
  let batch_size := to_int self.layer_param_.batch_size
  let top ← reshape_top top 0 batch_size self.data_blob_.channels
              self.data_blob_.height self.data_blob_.width
  let top ←
    if n_blobs ≥ 2 then
      reshape_top top 1 batch_size self.label_blob_.channels
        self.label_blob_.height self.label_blob_.width
    else pure top
  let top ←
    if n_blobs ≥ 3 then
      reshape_top top 2 batch_size self.sample_weight_blob_.channels
        self.sample_weight_blob_.height self.sample_weight_blob_.width
    else pure top
  pure (self, top)

/-- `caffe_copy(n, &src[soff], &dst[doff])`: copies `n` elements; reading or
writing past the end of a buffer is undefined. -/
def caffe_copy (n : Nat) (src : List Dtype) (soff : Nat) (dst : List Dtype)
    (doff : Nat) : Except Failure (List Dtype) :=
  if soff + n ≤ src.length ∧ doff + n ≤ dst.length then
    .ok (dst.take doff ++ (src.drop soff).take n ++ dst.drop (doff + n))
  else .error .undefined

/-- One of the three copies of lines 131-142: `n` elements of row
`current_row` of `blob` go to row `i` of `(*top)[g]`. -/
def copy_row (n : Nat) (blob : Blob) (current_row : Nat) (top : List Blob)
    (g i : Nat) : Except Failure (List Blob) :=
  match top[g]? with
  | none => .error .undefined
  | some t => do
    let d ← caffe_copy n blob.data (current_row * n) t.data (i * n)
    pure (top.set g { t with data := d })

/-- `count() / num()` of `(*top)[g]`, lines 113-117: the `int` division, which
truncates; dividing by zero is undefined. The count is `num` times
channels * height * width, so the quotient is that product; it is kept as a
natural number. -/
def row_count (top : List Blob) (g : Nat) : Except Failure Nat :=
  match top[g]? with
  | none => .error .undefined
  | some t =>
    if t.num = 0 then .error .undefined else .ok (t.count.tdiv t.num).toNat

/-- Lines 120-130: when the loaded file is exhausted, move to the next file
(with more than one file) and reset the row cursor. -/
def Forward_advance (fs : FileSystem) (n_blobs : Nat) (self : HDF5DataLayer) :
    Except Failure HDF5DataLayer :=
  if (self.current_row_ : Int) = self.data_blob_.num then do
    let self ←
      if self.num_files_ > 1 then
        let self := { self with current_file_ := self.current_file_ + 1 }
        let self :=
          if self.current_file_ = self.num_files_
          then { self with current_file_ := 0 } else self
        match self.hdf_filenames_[self.current_file_]? with
        | none => .error .undefined
        | some filename => LoadHDF5FileData fs self filename n_blobs
      else pure self
    pure { self with current_row_ := 0 }
  else pure self

/-- Lines 131-142: the copies of one iteration. -/
def Forward_copy (n_blobs data_count label_data_count sample_weight_data_count : Nat)
    (self : HDF5DataLayer) (top : List Blob) (i : Nat) : Except Failure (List Blob) := do
  let top ← copy_row data_count self.data_blob_ self.current_row_ top 0 i
  let top ←
    if n_blobs ≥ 2 then
      copy_row label_data_count self.label_blob_ self.current_row_ top 1 i
    else pure top
  if n_blobs ≥ 3 then
    copy_row sample_weight_data_count self.sample_weight_blob_ self.current_row_ top 2 i
  else pure top

/-- One iteration of the loop of lines 119-143, with its `++current_row_`. -/
def Forward_row (fs : FileSystem)
    (n_blobs data_count label_data_count sample_weight_data_count : Nat)
    (i : Nat) (self : HDF5DataLayer) (top : List Blob) :
    Except Failure (HDF5DataLayer × List Blob) := do
  let self ← Forward_advance fs n_blobs self
  let top ← Forward_copy n_blobs data_count label_data_count
              sample_weight_data_count self top i
  pure ({ self with current_row_ := self.current_row_ + 1 }, top)

/-- The loop `for (i = ...; i < batch_size; ++i, ++current_row_)`: `todo` is
the number of iterations still to run, `batch_size - i` when that is positive
and zero otherwise. -/
def Forward_loop (fs : FileSystem)
    (n_blobs data_count label_data_count sample_weight_data_count : Nat) :
    Nat → Nat → HDF5DataLayer → List Blob → Except Failure (HDF5DataLayer × List Blob)
  | 0, _, self, top => .ok (self, top)
  | todo + 1, i, self, top =>
    match Forward_row fs n_blobs data_count label_data_count
            sample_weight_data_count i self top with
    | .error e => .error e
    | .ok (self, top) =>
      Forward_loop fs n_blobs data_count label_data_count
        sample_weight_data_count todo (i + 1) self top

/-- Lines 113-117: `data_count`, `label_data_count` and
`sample_weight_data_count`. -/
def Forward_counts (top : List Blob) : Except Failure (Nat × Nat × Nat) := do
  let n_blobs := top.length
  let data_count ← row_count top 0
  let label_data_count ← if n_blobs ≥ 2 then row_count top 1 else pure 0
  let sample_weight_data_count ← if n_blobs ≥ 3 then row_count top 2 else pure 0
  pure (data_count, label_data_count, sample_weight_data_count)

/-- `HDF5DataLayer::Forward_cpu`, lines 108-144. The loop starts at `i = 0`
and runs while `i < batch_size` with `batch_size` the `const int` of line 112:
`batch_size` iterations when that is positive, none otherwise. -/
def Forward_cpu (fs : FileSystem) (self : HDF5DataLayer) (top : List Blob) :
    Except Failure (HDF5DataLayer × List Blob) :=
  match Forward_counts top with
  | .error e => .error e
  | .ok (data_count, label_data_count, sample_weight_data_count) =>
    let batch_size := to_int self.layer_param_.batch_size
    Forward_loop fs top.length data_count label_data_count sample_weight_data_count
      batch_size.toNat 0 self top

/-- Consecutive fills: `Forward_cpu` called `k` times in a row on the same
output buffers. -/
def Forward_times (fs : FileSystem) :
    Nat → HDF5DataLayer → List Blob → Except Failure (HDF5DataLayer × List Blob)
  | 0, self, top => .ok (self, top)
  | k + 1, self, top =>
    match Forward_cpu fs self top with
    | .error e => .error e
    | .ok (self, top) => Forward_times fs k self top

/-! ## Vocabulary of the statements -/

/-- The named dataset is present in the file and its rank lies in `[lo, hi]`. -/
def group_rank_ok (file : H5File) (name : String) (lo hi : Nat) : Bool :=
  match file.datasets.lookup name with
  | some ds => decide (lo ≤ ds.dims.length ∧ ds.dims.length ≤ hi)
  | none => false

/-- The blob the named dataset of a file is read into (the empty blob when the
dataset is absent). -/
def file_blob (file : H5File) (name : String) : Blob :=
  match file.datasets.lookup name with
  | some ds => dataset_blob ds
  | none => Blob.empty

/-- Row count of the named dataset of a file: its leading dimension. -/
def group_rows (file : H5File) (name : String) : Int := (file_blob file name).num

/-- The file loads successfully with `n` requested groups: every requested
group is present with its rank in range, the row counts of the label and
sample_weight groups agree with the data group, and the file closes. -/
def loads_ok (file : H5File) (n : Nat) : Bool :=
  (decide (n < 1) || group_rank_ok file "data" 2 4) &&
  (decide (n < 2) || (group_rank_ok file "label" 1 2 &&
      decide (group_rows file "data" = group_rows file "label"))) &&
  (decide (n < 3) || (group_rank_ok file "sample_weight" 1 2 &&
      decide (group_rows file "data" = group_rows file "sample_weight"))) &&
  file.close_ok

/-- The layer after a successful load of `file` with `n` requested groups: the
requested blobs are those of the file, everything else is as before. -/
def loaded (self : HDF5DataLayer) (file : H5File) (n : Nat) : HDF5DataLayer :=
  { self with
    data_blob_ := if 1 ≤ n then file_blob file "data" else self.data_blob_
    label_blob_ := if 2 ≤ n then file_blob file "label" else self.label_blob_
    sample_weight_blob_ :=
      if 3 ≤ n then file_blob file "sample_weight" else self.sample_weight_blob_ }

/-- The words of a text: its maximal non-empty runs of non-whitespace
characters, in order (the text split at every whitespace character, empty
pieces dropped). -/
def words (text : List Char) : List (List Char) :=
  (text.splitOnP isspace).filter (fun t => !t.isEmpty)

/-- The whitespace-delimited tokens of a manifest text, in manifest order. -/
def manifest_tokens (text : String) : List String :=
  (words text.data).map String.mk

/-- The file list the manifest at `source` defines: its tokens, or the empty
list when the manifest cannot be opened. -/
def manifest_files (fs : FileSystem) (source : String) : List String :=
  match fs.ifstream source with
  | some text => manifest_tokens text
  | none => []

/-- The name of the `g`-th group: data, label, sample_weight. -/
def group_name : Nat → String
  | 0 => "data"
  | 1 => "label"
  | _ => "sample_weight"

/-- The `g`-th loaded array of the layer: data, label, sample_weight. -/
def group_blob (self : HDF5DataLayer) : Nat → Blob
  | 0 => self.data_blob_
  | 1 => self.label_blob_
  | _ => self.sample_weight_blob_

/-- The shape vector of a blob. -/
def Blob.shape (b : Blob) : Int × Nat × Nat × Nat := (b.num, b.channels, b.height, b.width)

/-- Row `r` of a blob read with `n` elements per row. -/
def Blob.row (b : Blob) (n r : Nat) : List Dtype := (b.data.drop (r * n)).take n

/-- The blob with the `n` elements of its row `i` replaced by `row`. -/
def Blob.write_row (b : Blob) (n i : Nat) (row : List Dtype) : Blob :=
  { b with data := b.data.take (i * n) ++ row ++ b.data.drop (i * n + n) }

/-- The copy of `c` elements from row `r` of `src` to row `i` of `dst` stays
inside both buffers. -/
def copy_in_bounds (c r i : Nat) (src dst : Blob) : Prop :=
  r * c + c ≤ src.data.length ∧ i * c + c ≤ dst.data.length

instance (c r i : Nat) (src dst : Blob) : Decidable (copy_in_bounds c r i src dst) := by
  unfold copy_in_bounds
  infer_instance

/-- The per-row element count the fill uses for group `g`. -/
def group_count (dc lc sc : Nat) : Nat → Nat
  | 0 => dc
  | 1 => lc
  | _ => sc

/-- The arrays of the groups that are not requested with `n` groups are the
same in `s2` as in `s1`, and so are the file list and the parameters. -/
def unrequested_kept (n : Nat) (s1 s2 : HDF5DataLayer) : Prop :=
  (n ≤ 1 → s2.label_blob_ = s1.label_blob_) ∧
  (n ≤ 2 → s2.sample_weight_blob_ = s1.sample_weight_blob_) ∧
  s2.hdf_filenames_ = s1.hdf_filenames_ ∧ s2.num_files_ = s1.num_files_ ∧
  s2.layer_param_ = s1.layer_param_

/-- The HDF5 file at a path (an empty file that does not close when the path
does not open). -/
def file_at (fs : FileSystem) (p : String) : H5File :=
  (fs.H5Fopen p).getD ⟨[], false⟩

/-- The blob of group `g` of the file at a path. -/
def path_blob (fs : FileSystem) (p : String) (g : Nat) : Blob :=
  file_blob (file_at fs p) (group_name g)

/-- Elements per row of a blob: channels * height * width. -/
def Blob.per_row (b : Blob) : Nat := b.channels * b.height * b.width

/-- The rows of a blob, in order. -/
def Blob.rows (b : Blob) : List (List Dtype) :=
  (List.range b.num.toNat).map (fun r => b.row b.per_row r)

/-- The row count of the file at a path: the leading dimension of its data
group. -/
def path_rows (fs : FileSystem) (p : String) : Nat := (path_blob fs p 0).num.toNat

/-- The number of rows in the first `j` files of the list. -/
def rows_before (fs : FileSystem) : List String → Nat → Nat
  | [], _ => 0
  | _ :: _, 0 => 0
  | p :: ps, j + 1 => path_rows fs p + rows_before fs ps j

/-- The total row count `T` over all files. -/
def total_rows (fs : FileSystem) (fl : List String) : Nat := rows_before fs fl fl.length

/-- The position of the cursor in the concatenation of all rows. -/
def stream_pos (fs : FileSystem) (fl : List String) (s : HDF5DataLayer) : Nat :=
  rows_before fs fl s.current_file_ + s.current_row_

/-- Every file of the list opens and loads successfully with `n` groups, with
at least one row. -/
def files_load (fs : FileSystem) (fl : List String) (n : Nat) : Prop :=
  ∀ p ∈ fl, (fs.H5Fopen p).isSome = true ∧ loads_ok (file_at fs p) n = true ∧
    1 ≤ (path_blob fs p 0).num

/-- Every requested dataset holds as many elements as its dimensions say. -/
def files_well_formed (fs : FileSystem) (fl : List String) (n : Nat) : Prop :=
  ∀ p ∈ fl, ∀ g, g < n →
    ((path_blob fs p g).data.length : Int) = (path_blob fs p g).count

/-- The cursor invariant relative to the file list `fl`: the layer holds the
list, the file index is in range, the row cursor is at most the row count, and
the requested arrays are those of the file the index names. -/
structure cursor_ok (fs : FileSystem) (fl : List String) (n : Nat)
    (s : HDF5DataLayer) : Prop where
  names : s.hdf_filenames_ = fl
  files : s.num_files_ = fl.length
  file_lt : s.current_file_ < fl.length
  row_le : (s.current_row_ : Int) ≤ s.data_blob_.num
  blobs : ∃ p, fl[s.current_file_]? = some p ∧
    ∀ g, g < n → group_blob s g = path_blob fs p g

/-- The layer `s2` has the file index, the loaded arrays, the file list and the
parameters of `s1`; only the row cursor may differ. -/
def arrays_kept (s1 s2 : HDF5DataLayer) : Prop :=
  s2.current_file_ = s1.current_file_ ∧ s2.data_blob_ = s1.data_blob_ ∧
  s2.label_blob_ = s1.label_blob_ ∧ s2.sample_weight_blob_ = s1.sample_weight_blob_ ∧
  s2.hdf_filenames_ = s1.hdf_filenames_ ∧ s2.num_files_ = s1.num_files_ ∧
  s2.layer_param_ = s1.layer_param_

/-- The range predicate of the cursor: the file index is below the file count
and the row cursor is at most the row count of the loaded data array. -/
def cursor_in_range (s : HDF5DataLayer) : Prop :=
  s.current_file_ < s.num_files_ ∧ (s.current_row_ : Int) ≤ s.data_blob_.num

/-- The file index the fill moves to when the loaded file is exhausted and
there is more than one file (lines 122-126). -/
def next_file (self : HDF5DataLayer) : Nat :=
  if self.current_file_ + 1 = self.num_files_ then 0 else self.current_file_ + 1

/-- A freshly constructed layer: empty blobs, no file names. -/
def fresh_layer (source : String) (batch_size : Nat) : HDF5DataLayer :=
  { layer_param_ := ⟨source, batch_size⟩, hdf_filenames_ := [], num_files_ := 0,
    current_file_ := 0, current_row_ := 0, data_blob_ := Blob.empty,
    label_blob_ := Blob.empty, sample_weight_blob_ := Blob.empty }

/-- A layer set up earlier on some other manifest: its list holds a stale
name. -/
def stale_layer : HDF5DataLayer :=
  { fresh_layer "list.txt" 3 with hdf_filenames_ := ["stale.h5"], num_files_ := 1 }

/-- Example file: two rows of one element, with labels. -/
def file_a : H5File :=
  ⟨[("data", ⟨[2, 1], [10, 11]⟩), ("label", ⟨[2], [0, 1]⟩),
    ("sample_weight", ⟨[2], [5, 6]⟩)], true⟩

/-- Example file: two rows of one element, with labels. -/
def file_b : H5File :=
  ⟨[("data", ⟨[2, 1], [20, 21]⟩), ("label", ⟨[2], [2, 3]⟩),
    ("sample_weight", ⟨[2], [7, 8]⟩)], true⟩

/-- Example file whose label group has three rows for two data rows. -/
def file_mismatch : H5File :=
  ⟨[("data", ⟨[2, 1], [30, 31]⟩), ("label", ⟨[3], [0, 1, 2]⟩)], true⟩

/-- Example file with three rows of one element. -/
def file_c : H5File := ⟨[("data", ⟨[3, 1], [40, 41, 42]⟩)], true⟩

/-- Example file whose data group has rank 1, below the bound `[2, 4]`. -/
def file_flat : H5File := ⟨[("data", ⟨[4], [1, 2, 3, 4]⟩)], true⟩

/-- Example file with two rows of two elements. -/
def file_wide : H5File := ⟨[("data", ⟨[2, 2], [20, 21, 22, 23]⟩)], true⟩

/-- Example file with two rows shaped 1 x 2: the per-row element count of
`file_wide` (rows shaped 2 x 1) with another per-row shape. -/
def file_deep : H5File := ⟨[("data", ⟨[2, 1, 2], [30, 31, 32, 33]⟩)], true⟩

/-- Example file with a single row. -/
def file_one : H5File := ⟨[("data", ⟨[1, 1], [10]⟩)], true⟩

/-- A layer on `list.txt` with one group, holding `a.h5` with the cursor at its
last row. -/
def layer_last_row : HDF5DataLayer :=
  { layer_param_ := ⟨"list.txt", 3⟩, hdf_filenames_ := ["a.h5", "b.h5"], num_files_ := 2,
    current_file_ := 0, current_row_ := 1, data_blob_ := file_blob file_a "data",
    label_blob_ := Blob.empty, sample_weight_blob_ := Blob.empty }

/-- One output buffer of `rows` rows of one element, zeroed. -/
def top_rows (rows : Nat) : List Blob := [⟨(rows : Int), 1, 1, 1, List.replicate rows 0⟩]

/-- Example world: the manifest `list.txt` names `a.h5` and `b.h5`;
`three.txt` names the three-row file `c.h5`; `bad.txt` names the mismatched
file; `gone.txt` names `one.h5` and a file that does not open, `none.txt` only
a file that does not open; `drift.txt` and `drift2.txt` name `a.h5` (one
element per row) and `wide.h5` (two elements per row) in the two orders;
`same.txt` names `wide.h5` and `deep.h5`, of one per-row element count and
two per-row shapes. -/
def fs_demo : FileSystem where
  ifstream := fun s =>
    if s = "list.txt" then some "a.h5\nb.h5\n"
    else if s = "three.txt" then some "c.h5\n"
    else if s = "bad.txt" then some "a.h5 mismatch.h5"
    else if s = "gone.txt" then some "one.h5\tgone.h5"
    else if s = "none.txt" then some "gone.h5"
    else if s = "drift.txt" then some "a.h5 wide.h5"
    else if s = "drift2.txt" then some "wide.h5 a.h5"
    else if s = "same.txt" then some "wide.h5 deep.h5"
    else none
  H5Fopen := fun s =>
    if s = "a.h5" then some file_a
    else if s = "b.h5" then some file_b
    else if s = "c.h5" then some file_c
    else if s = "mismatch.h5" then some file_mismatch
    else if s = "one.h5" then some file_one
    else if s = "flat.h5" then some file_flat
    else if s = "wide.h5" then some file_wide
    else if s = "deep.h5" then some file_deep
    else none

/-! ## Lemmas on the conversion to int -/

theorem to_int_small (v : Nat) (h : v < 2 ^ 31) : to_int v = (v : Int) := by
  unfold to_int
  have h1 : v % 4294967296 = v := Nat.mod_eq_of_lt (by omega)
  rw [h1, if_pos (by omega)]

theorem to_int_negative (v : Nat) (h1 : 2147483648 ≤ v) (h2 : v < 4294967296) :
    to_int v < 0 := by
  unfold to_int
  have h3 : v % 4294967296 = v := Nat.mod_eq_of_lt h2
  rw [h3, if_neg (by omega)]
  omega

/-! ## Lemmas on the loader -/

theorem hdf5_load_nd_dataset_ok (file : H5File) (name : String) (lo hi : Nat)
    (h : group_rank_ok file name lo hi = true) :
    hdf5_load_nd_dataset file name lo hi = .ok (file_blob file name) := by
  unfold group_rank_ok at h
  unfold hdf5_load_nd_dataset file_blob
  cases hl : file.datasets.lookup name with
  | none => simp [hl] at h
  | some ds =>
    simp only [hl, decide_eq_true_eq] at h
    simp [h]

theorem hdf5_load_nd_dataset_fatal (file : H5File) (name : String) (lo hi : Nat)
    (h : group_rank_ok file name lo hi = false) :
    hdf5_load_nd_dataset file name lo hi = .error .fatal := by
  unfold group_rank_ok at h
  unfold hdf5_load_nd_dataset
  cases hl : file.datasets.lookup name with
  | none => rfl
  | some ds =>
    simp only [hl, decide_eq_false_iff_not] at h
    simp only [if_neg h]

theorem LoadHDF5FileData_not_opened (fs : FileSystem) (self : HDF5DataLayer)
    (filename : String) (n_blobs : Nat) (h : fs.H5Fopen filename = none) :
    LoadHDF5FileData fs self filename n_blobs = .ok self := by
  simp [LoadHDF5FileData, h]

theorem hdf5_load_nd_dataset_eq (file : H5File) (name : String) (lo hi : Nat) :
    hdf5_load_nd_dataset file name lo hi =
      if group_rank_ok file name lo hi = true then .ok (file_blob file name)
      else .error .fatal := by
  cases h : group_rank_ok file name lo hi
  · simpa using hdf5_load_nd_dataset_fatal file name lo hi h
  · simpa using hdf5_load_nd_dataset_ok file name lo hi h

/-- The loader on a file that opens: it succeeds exactly when `loads_ok`, and
then replaces the requested blobs; otherwise it is fatal. -/
theorem LoadHDF5FileData_opened (fs : FileSystem) (self : HDF5DataLayer)
    (filename : String) (n : Nat) (file : H5File)
    (ho : fs.H5Fopen filename = some file) :
    LoadHDF5FileData fs self filename n =
      if loads_ok file n = true then .ok (loaded self file n) else .error .fatal := by
  unfold LoadHDF5FileData
  simp only [ho, hdf5_load_nd_dataset_eq, loads_ok, loaded, group_rows]
  by_cases h1 : 1 ≤ n <;> by_cases h2 : 2 ≤ n <;> by_cases h3 : 3 ≤ n <;>
    try omega
  all_goals
    cases hd : group_rank_ok file "data" 2 4 <;>
    cases hl : group_rank_ok file "label" 1 2 <;>
    cases hw : group_rank_ok file "sample_weight" 1 2 <;>
    cases hc : file.close_ok <;>
    simp [h1, h2, h3, bind, Except.bind, pure, Except.pure] <;>
    split_ifs <;> first | rfl | omega

@[simp] theorem loaded_frame (self : HDF5DataLayer) (file : H5File) (n : Nat) :
    (loaded self file n).layer_param_ = self.layer_param_ ∧
    (loaded self file n).hdf_filenames_ = self.hdf_filenames_ ∧
    (loaded self file n).num_files_ = self.num_files_ ∧
    (loaded self file n).current_file_ = self.current_file_ ∧
    (loaded self file n).current_row_ = self.current_row_ :=
  ⟨rfl, rfl, rfl, rfl, rfl⟩

/-- A load that returns is either the silent return of an open failure or the
successful load of the opened file. -/
theorem LoadHDF5FileData_ok_cases (fs : FileSystem) (self s : HDF5DataLayer)
    (filename : String) (n : Nat) (h : LoadHDF5FileData fs self filename n = .ok s) :
    (fs.H5Fopen filename = none ∧ s = self) ∨
    (∃ file, fs.H5Fopen filename = some file ∧ loads_ok file n = true ∧
      s = loaded self file n) := by
  cases ho : fs.H5Fopen filename with
  | none =>
    rw [LoadHDF5FileData_not_opened fs self filename n ho] at h
    exact Or.inl ⟨rfl, (Except.ok.inj h).symm⟩
  | some file =>
    rw [LoadHDF5FileData_opened fs self filename n file ho] at h
    by_cases hl : loads_ok file n = true
    · rw [if_pos hl] at h
      exact Or.inr ⟨file, rfl, hl, (Except.ok.inj h).symm⟩
    · rw [if_neg hl] at h
      cases h

/-- The loader never touches the file list, the counters or the parameters. -/
theorem LoadHDF5FileData_frame (fs : FileSystem) (self s : HDF5DataLayer)
    (filename : String) (n : Nat) (h : LoadHDF5FileData fs self filename n = .ok s) :
    s.layer_param_ = self.layer_param_ ∧ s.hdf_filenames_ = self.hdf_filenames_ ∧
    s.num_files_ = self.num_files_ ∧ s.current_file_ = self.current_file_ ∧
    s.current_row_ = self.current_row_ := by
  rcases LoadHDF5FileData_ok_cases fs self s filename n h with ⟨_, rfl⟩ | ⟨file, _, _, rfl⟩
  · exact ⟨rfl, rfl, rfl, rfl, rfl⟩
  · exact loaded_frame self file n

/-- A row-count mismatch between a requested group and the data group makes
`loads_ok` false. -/
theorem loads_ok_false_of_mismatch (file : H5File) (n : Nat)
    (hmis : (2 ≤ n ∧ group_rows file "label" ≠ group_rows file "data") ∨
            (3 ≤ n ∧ group_rows file "sample_weight" ≠ group_rows file "data")) :
    loads_ok file n = false := by
  unfold loads_ok
  rcases hmis with ⟨hn, hne⟩ | ⟨hn, hne⟩
  · have h1 : ¬ n < 2 := by omega
    have h2 : ¬ group_rows file "data" = group_rows file "label" := fun h => hne h.symm
    simp [h1, h2]
  · have h1 : ¬ n < 3 := by omega
    have h2 : ¬ group_rows file "data" = group_rows file "sample_weight" :=
      fun h => hne h.symm
    simp [h1, h2]

/-! ## Lemmas on the fill loop -/


theorem Forward_loop_zero (fs : FileSystem) (n dc lc sc i : Nat)
    (self : HDF5DataLayer) (top : List Blob) :
    Forward_loop fs n dc lc sc 0 i self top = .ok (self, top) := rfl

theorem Forward_loop_succ (fs : FileSystem) (n dc lc sc todo i : Nat)
    (self : HDF5DataLayer) (top : List Blob) :
    Forward_loop fs n dc lc sc (todo + 1) i self top =
      match Forward_row fs n dc lc sc i self top with
      | .error e => .error e
      | .ok (s, t) => Forward_loop fs n dc lc sc todo (i + 1) s t := rfl

/-- Running `k + m` iterations is running `k` iterations and then `m` more. -/
theorem Forward_loop_add (fs : FileSystem) (n dc lc sc : Nat) (k m : Nat) :
    ∀ (i : Nat) (self : HDF5DataLayer) (top : List Blob),
    Forward_loop fs n dc lc sc (k + m) i self top =
      match Forward_loop fs n dc lc sc k i self top with
      | .error e => .error e
      | .ok (s, t) => Forward_loop fs n dc lc sc m (i + k) s t := by
  induction k with
  | zero => intro i self top; simp [Forward_loop_zero]
  | succ k ih =>
    intro i self top
    have hk : k + 1 + m = (k + m) + 1 := by omega
    rw [hk, Forward_loop_succ, Forward_loop_succ]
    cases hr : Forward_row fs n dc lc sc i self top with
    | error e => rfl
    | ok r =>
      obtain ⟨s, t⟩ := r
      simp only [ih (i + 1) s t]
      have hi : i + 1 + k = i + (k + 1) := by omega
      rw [hi]

/-- The advance of lines 120-130 on an exhausted file with several files. -/
theorem Forward_advance_switch (fs : FileSystem) (n : Nat) (self : HDF5DataLayer)
    (filename : String) (hrow : self.current_row_ = self.data_blob_.num)
    (hfiles : 1 < self.num_files_)
    (hname : self.hdf_filenames_[next_file self]? = some filename) :
    Forward_advance fs n self =
      match LoadHDF5FileData fs { self with current_file_ := next_file self } filename n with
      | .error e => .error e
      | .ok s => .ok { s with current_row_ := 0 } := by
  unfold Forward_advance
  unfold next_file at hname ⊢
  rw [if_pos hrow]
  by_cases hw : self.current_file_ + 1 = self.num_files_
  · simp only [hw, if_true] at hname ⊢
    simp only [hfiles, if_true, gt_iff_lt, hname, bind, Except.bind, pure, Except.pure]
    generalize LoadHDF5FileData fs _ filename n = r
    cases r <;> rfl
  · simp only [hw, if_false] at hname ⊢
    simp only [hfiles, if_true, gt_iff_lt, hname, bind, Except.bind, pure, Except.pure]
    generalize LoadHDF5FileData fs _ filename n = r
    cases r <;> rfl

/-! ## Lemmas on the manifest parser -/

theorem words_nil : words [] = [] := by
  simp [words]

theorem words_cons_space (c : Char) (cs : List Char) (hc : isspace c = true) :
    words (c :: cs) = words cs := by
  simp [words, List.splitOnP_cons, hc]

/-- A non-empty run in progress `w`, continued by the text `l`, ends at the
first whitespace of `l`. -/
theorem words_run (l : List Char) :
    ∀ w : List Char, w ≠ [] →
      (((l.splitOnP isspace).modifyHead (w ++ ·)).filter (fun t => !t.isEmpty)) =
        (w ++ l.takeWhile (fun x => !isspace x)) ::
          words (l.dropWhile (fun x => !isspace x)) := by
  induction l with
  | nil =>
    intro w hw
    cases w with
    | nil => exact absurd rfl hw
    | cons a w => simp [words]
  | cons x xs ih =>
    intro w hw
    by_cases hx : isspace x = true
    · cases w with
      | nil => exact absurd rfl hw
      | cons a w => simp [words, List.splitOnP_cons, hx]
    · have hx2 : isspace x = false := by simpa using hx
      rw [List.splitOnP_cons]
      simp only [hx2, Bool.false_eq_true, if_false, List.modifyHead_modifyHead]
      have hfun : ((fun t : List Char => w ++ t) ∘ List.cons x) =
          (fun t : List Char => (w ++ [x]) ++ t) := by
        funext t; simp
      rw [hfun, ih (w ++ [x]) (by simp)]
      simp [hx2]

theorem words_cons_word (c : Char) (cs : List Char) (hc : isspace c = false) :
    words (c :: cs) =
      (c :: cs).takeWhile (fun x => !isspace x) ::
        words ((c :: cs).dropWhile (fun x => !isspace x)) := by
  have h := words_run cs [c] (by simp)
  simp only [words, List.splitOnP_cons, hc, Bool.false_eq_true, if_false]
  simpa [List.takeWhile_cons, List.dropWhile_cons, hc, words] using h

theorem words_dropWhile_space (l : List Char) :
    words (l.dropWhile isspace) = words l := by
  induction l with
  | nil => rfl
  | cons c cs ih =>
    by_cases hc : isspace c = true
    · rw [List.dropWhile_cons, if_pos hc, ih, words_cons_space c cs hc]
    · rw [List.dropWhile_cons, if_neg hc]

theorem dropWhile_head_false (p : Char → Bool) (l : List Char) (c : Char) (cs : List Char)
    (h : l.dropWhile p = c :: cs) : p c = false := by
  induction l with
  | nil => simp at h
  | cons a as ih =>
    by_cases ha : p a = true
    · rw [List.dropWhile_cons, if_pos ha] at h
      exact ih h
    · rw [List.dropWhile_cons, if_neg ha] at h
      injection h with h1 _
      subst h1
      simpa using ha

theorem dropWhile_length_le (p : Char → Bool) (l : List Char) :
    (l.dropWhile p).length ≤ l.length := by
  induction l with
  | nil => simp
  | cons a as ih =>
    rw [List.dropWhile_cons]
    split
    · simp only [List.length_cons]; omega
    · exact Nat.le_refl _

/-- With fuel at least the length of the text, the extraction loop appends
exactly the words of the text. -/
theorem read_filenames_eq (fuel : Nat) :
    ∀ (stream : List Char) (acc : List String), stream.length ≤ fuel →
      read_filenames fuel stream acc = acc ++ (words stream).map String.mk := by
  induction fuel with
  | zero =>
    intro stream acc h
    have : stream = [] := List.length_eq_zero.1 (Nat.le_zero.1 h)
    subst this
    simp [read_filenames, words_nil]
  | succ fuel ih =>
    intro stream acc h
    unfold read_filenames extract
    cases hd : stream.dropWhile isspace with
    | nil =>
      have hw : words stream = [] := by
        rw [← words_dropWhile_space, hd, words_nil]
      simp [hw]
    | cons c cs =>
      have hc : isspace c = false := dropWhile_head_false isspace stream c cs hd
      have hlen : ((c :: cs).dropWhile (fun x => !isspace x)).length ≤ fuel := by
        have h1 : (c :: cs).dropWhile (fun x => !isspace x)
            = cs.dropWhile (fun x => !isspace x) := by
          simp [List.dropWhile_cons, hc]
        have h2 := dropWhile_length_le (fun x => !isspace x) cs
        have h3 := dropWhile_length_le isspace stream
        rw [hd] at h3
        simp only [List.length_cons] at h3
        rw [h1]
        omega
      have hw : words stream =
          (c :: cs).takeWhile (fun x => !isspace x) ::
            words ((c :: cs).dropWhile (fun x => !isspace x)) := by
        rw [← words_dropWhile_space, hd, words_cons_word c cs hc]
      simp only []
      rw [ih _ _ hlen, hw]
      simp

/-- The parse of lines 68-81 yields the tokens of the manifest, or the empty
list when the manifest cannot be opened, whatever the list held before. -/
theorem LayerSetUp_filenames_eq (fs : FileSystem) (self : HDF5DataLayer) :
    (LayerSetUp_filenames fs self).hdf_filenames_ =
      match fs.ifstream self.layer_param_.source with
      | some text => manifest_tokens text
      | none => [] := by
  unfold LayerSetUp_filenames
  cases h : fs.ifstream self.layer_param_.source with
  | none => simp [h]
  | some text =>
    simp only [h]
    rw [read_filenames_eq _ _ _ (Nat.le_refl _)]
    simp [manifest_tokens]

/-! ## Lemmas on the setup -/

theorem LayerSetUp_filenames_frame (fs : FileSystem) (self : HDF5DataLayer) :
    (LayerSetUp_filenames fs self).layer_param_ = self.layer_param_ ∧
    (LayerSetUp_filenames fs self).current_file_ = 0 ∧
    (LayerSetUp_filenames fs self).current_row_ = self.current_row_ ∧
    (LayerSetUp_filenames fs self).data_blob_ = self.data_blob_ ∧
    (LayerSetUp_filenames fs self).label_blob_ = self.label_blob_ ∧
    (LayerSetUp_filenames fs self).sample_weight_blob_ = self.sample_weight_blob_ ∧
    (LayerSetUp_filenames fs self).num_files_ =
      (LayerSetUp_filenames fs self).hdf_filenames_.length := by
  unfold LayerSetUp_filenames
  cases h : fs.ifstream self.layer_param_.source <;> simp [h]

theorem LayerSetUp_filenames_files (fs : FileSystem) (self : HDF5DataLayer) :
    (LayerSetUp_filenames fs self).hdf_filenames_
      = manifest_files fs self.layer_param_.source ∧
    (LayerSetUp_filenames fs self).num_files_
      = (manifest_files fs self.layer_param_.source).length := by
  have h1 : (LayerSetUp_filenames fs self).hdf_filenames_
      = manifest_files fs self.layer_param_.source := LayerSetUp_filenames_eq fs self
  refine ⟨h1, ?_⟩
  rw [(LayerSetUp_filenames_frame fs self).2.2.2.2.2.2, h1]

theorem reshape_top_ok (top : List Blob) (g : Nat) (num : Int) (c h w : Nat)
    (hg : g < top.length) :
    reshape_top top g num c h w = .ok (top.set g ((top[g]).Reshape num c h w)) := by
  unfold reshape_top
  rw [List.getElem?_eq_getElem hg]

/-- A load error during setup is the error of the setup. -/
theorem LayerSetUp_load_error (fs : FileSystem) (self : HDF5DataLayer) (top : List Blob)
    (filename : String) (e : Failure)
    (hname : (LayerSetUp_filenames fs self).hdf_filenames_[0]? = some filename)
    (hload : LoadHDF5FileData fs (LayerSetUp_filenames fs self) filename top.length
      = .error e) :
    LayerSetUp fs self top = .error e := by
  unfold LayerSetUp
  simp only [(LayerSetUp_filenames_frame fs self).2.1, hname, hload, bind, Except.bind]

/-- The setup once its load has returned: the row cursor is reset and the
first `min n 3` output buffers are reshaped from the loaded blobs. -/
theorem LayerSetUp_after_load (fs : FileSystem) (self s1 : HDF5DataLayer)
    (top : List Blob) (filename : String)
    (hname : (LayerSetUp_filenames fs self).hdf_filenames_[0]? = some filename)
    (hload : LoadHDF5FileData fs (LayerSetUp_filenames fs self) filename top.length
      = .ok s1)
    (hn : 1 ≤ top.length) :
    ∃ t, LayerSetUp fs self top = .ok ({ s1 with current_row_ := 0 }, t) ∧
      t.length = top.length ∧
      (∀ b, top[0]? = some b → t[0]? = some (b.Reshape (to_int s1.layer_param_.batch_size)
        s1.data_blob_.channels s1.data_blob_.height s1.data_blob_.width)) ∧
      (∀ b, top[1]? = some b → t[1]? = some (b.Reshape (to_int s1.layer_param_.batch_size)
        s1.label_blob_.channels s1.label_blob_.height s1.label_blob_.width)) ∧
      (∀ b, top[2]? = some b → t[2]? = some (b.Reshape (to_int s1.layer_param_.batch_size)
        s1.sample_weight_blob_.channels s1.sample_weight_blob_.height
        s1.sample_weight_blob_.width)) ∧
      (∀ g, 3 ≤ g → t[g]? = top[g]?) := by
  unfold LayerSetUp
  simp only [(LayerSetUp_filenames_frame fs self).2.1, hname, hload, bind, Except.bind,
    pure, Except.pure]
  rw [reshape_top_ok top 0 _ _ _ _ (by omega)]
  by_cases h2 : 2 ≤ top.length
  · by_cases h3 : 3 ≤ top.length
    · simp only [ge_iff_le, h2, h3, if_true]
      rw [reshape_top_ok _ 1 _ _ _ _ (by simp; omega)]
      simp only []
      rw [reshape_top_ok _ 2 _ _ _ _ (by simp; omega)]
      refine ⟨_, rfl, by simp, ?_, ?_, ?_, ?_⟩
      · intro b hb
        obtain ⟨hlt, rfl⟩ := List.getElem?_eq_some.1 hb
        simp [List.getElem?_set, hlt]
      · intro b hb
        obtain ⟨hlt, rfl⟩ := List.getElem?_eq_some.1 hb
        simp [List.getElem?_set, hlt, List.getElem_set]
      · intro b hb
        obtain ⟨hlt, rfl⟩ := List.getElem?_eq_some.1 hb
        simp [List.getElem?_set, hlt, List.getElem_set]
      · intro g hg
        have e0 : ¬ 0 = g := by omega
        have e1 : ¬ 1 = g := by omega
        have e2 : ¬ 2 = g := by omega
        simp [List.getElem?_set, e0, e1, e2]
    · simp only [ge_iff_le, h2, h3, if_true, if_false]
      rw [reshape_top_ok _ 1 _ _ _ _ (by simp; omega)]
      refine ⟨_, rfl, by simp, ?_, ?_, ?_, ?_⟩
      · intro b hb
        obtain ⟨hlt, rfl⟩ := List.getElem?_eq_some.1 hb
        simp [List.getElem?_set, hlt]
      · intro b hb
        obtain ⟨hlt, rfl⟩ := List.getElem?_eq_some.1 hb
        simp [List.getElem?_set, hlt, List.getElem_set]
      · intro b hb
        obtain ⟨hlt, rfl⟩ := List.getElem?_eq_some.1 hb
        omega
      · intro g hg
        have e0 : ¬ 0 = g := by omega
        have e1 : ¬ 1 = g := by omega
        simp [List.getElem?_set, e0, e1]
  · have h3 : ¬ 3 ≤ top.length := by omega
    simp only [ge_iff_le, h2, h3, if_false]
    refine ⟨_, rfl, by simp, ?_, ?_, ?_, ?_⟩
    · intro b hb
      obtain ⟨hlt, rfl⟩ := List.getElem?_eq_some.1 hb
      simp [List.getElem?_set, hlt]
    · intro b hb
      obtain ⟨hlt, rfl⟩ := List.getElem?_eq_some.1 hb
      omega
    · intro b hb
      obtain ⟨hlt, rfl⟩ := List.getElem?_eq_some.1 hb
      omega
    · intro g hg
      have e0 : ¬ 0 = g := by omega
      simp [List.getElem?_set, e0]

/-- A setup that returns has read a first file name, its load has returned,
and there is at least one output buffer. -/
theorem LayerSetUp_ok_cases (fs : FileSystem) (self s : HDF5DataLayer)
    (top t : List Blob) (h : LayerSetUp fs self top = .ok (s, t)) :
    ∃ filename s1, (LayerSetUp_filenames fs self).hdf_filenames_[0]? = some filename ∧
      LoadHDF5FileData fs (LayerSetUp_filenames fs self) filename top.length = .ok s1 ∧
      1 ≤ top.length ∧ s = { s1 with current_row_ := 0 } := by
  cases hname : (LayerSetUp_filenames fs self).hdf_filenames_[0]? with
  | none =>
    simp [LayerSetUp, (LayerSetUp_filenames_frame fs self).2.1, hname, bind, Except.bind] at h
  | some filename =>
    cases hload : LoadHDF5FileData fs (LayerSetUp_filenames fs self) filename top.length with
    | error e =>
      rw [LayerSetUp_load_error fs self top filename e hname hload] at h
      cases h
    | ok s1 =>
      by_cases hn : 1 ≤ top.length
      · obtain ⟨t1, ht1, _⟩ := LayerSetUp_after_load fs self s1 top filename hname hload hn
        rw [ht1] at h
        injection h with h
        injection h with h1 h2
        exact ⟨filename, s1, rfl, hload, hn, h1.symm⟩
      · have htop : top = [] := List.length_eq_zero.1 (by omega)
        subst htop
        simp only [List.length_nil] at hload
        simp [LayerSetUp, (LayerSetUp_filenames_frame fs self).2.1, hname, hload, bind,
          Except.bind, reshape_top] at h

theorem copy_row_eq (n : Nat) (blob : Blob) (r : Nat) (top : List Blob) (g i : Nat) :
    copy_row n blob r top g i =
      match top[g]? with
      | none => .error .undefined
      | some b =>
        if r * n + n ≤ blob.data.length ∧ i * n + n ≤ b.data.length then
          .ok (top.set g (b.write_row n i (blob.row n r)))
        else .error .undefined := by
  unfold copy_row caffe_copy
  cases top[g]? with
  | none => rfl
  | some b =>
    simp only [bind, Except.bind, pure, Except.pure]
    split_ifs <;> rfl

theorem Forward_copy_one (dc lc sc i : Nat) (s : HDF5DataLayer) (b0 : Blob) :
    Forward_copy 1 dc lc sc s [b0] i =
      if copy_in_bounds dc s.current_row_ i s.data_blob_ b0 then
        .ok [b0.write_row dc i (s.data_blob_.row dc s.current_row_)]
      else .error .undefined := by
  unfold Forward_copy copy_in_bounds
  simp only [copy_row_eq, bind, Except.bind, pure, Except.pure]
  by_cases c0 : s.current_row_ * dc + dc ≤ s.data_blob_.data.length ∧
      i * dc + dc ≤ b0.data.length
  · simp [c0]
  · simp [c0]

theorem Forward_copy_two (dc lc sc i : Nat) (s : HDF5DataLayer) (b0 b1 : Blob) :
    Forward_copy 2 dc lc sc s [b0, b1] i =
      if copy_in_bounds dc s.current_row_ i s.data_blob_ b0 ∧
         copy_in_bounds lc s.current_row_ i s.label_blob_ b1 then
        .ok [b0.write_row dc i (s.data_blob_.row dc s.current_row_),
             b1.write_row lc i (s.label_blob_.row lc s.current_row_)]
      else .error .undefined := by
  unfold Forward_copy copy_in_bounds
  simp only [copy_row_eq, bind, Except.bind, pure, Except.pure]
  by_cases c0 : s.current_row_ * dc + dc ≤ s.data_blob_.data.length ∧
      i * dc + dc ≤ b0.data.length
  · by_cases c1 : s.current_row_ * lc + lc ≤ s.label_blob_.data.length ∧
        i * lc + lc ≤ b1.data.length
    · simp [c0, c1]
    · simp [c0, c1]
  · simp [c0]

theorem Forward_copy_three (dc lc sc i : Nat) (s : HDF5DataLayer) (b0 b1 b2 : Blob) :
    Forward_copy 3 dc lc sc s [b0, b1, b2] i =
      if copy_in_bounds dc s.current_row_ i s.data_blob_ b0 ∧
         copy_in_bounds lc s.current_row_ i s.label_blob_ b1 ∧
         copy_in_bounds sc s.current_row_ i s.sample_weight_blob_ b2 then
        .ok [b0.write_row dc i (s.data_blob_.row dc s.current_row_),
             b1.write_row lc i (s.label_blob_.row lc s.current_row_),
             b2.write_row sc i (s.sample_weight_blob_.row sc s.current_row_)]
      else .error .undefined := by
  unfold Forward_copy copy_in_bounds
  simp only [copy_row_eq, bind, Except.bind, pure, Except.pure]
  by_cases c0 : s.current_row_ * dc + dc ≤ s.data_blob_.data.length ∧
      i * dc + dc ≤ b0.data.length
  · by_cases c1 : s.current_row_ * lc + lc ≤ s.label_blob_.data.length ∧
        i * lc + lc ≤ b1.data.length
    · by_cases c2 : s.current_row_ * sc + sc ≤ s.sample_weight_blob_.data.length ∧
          i * sc + sc ≤ b2.data.length
      · simp [c0, c1, c2]
      · simp [c0, c1, c2]
    · simp [c0, c1]
  · simp [c0]

/-- What the copies of one iteration do, read off a returning call: every
source and destination range is in bounds and row `i` of each of the first `n`
output buffers is overwritten by row `current_row_` of the matching array. -/
theorem Forward_copy_ok_elim (n dc lc sc i : Nat) (s : HDF5DataLayer) (top t : List Blob)
    (hlen : top.length = n) (h1 : 1 ≤ n) (h3 : n ≤ 3)
    (h : Forward_copy n dc lc sc s top i = .ok t) :
    t.length = n ∧ ∀ g, g < n → ∃ b, top[g]? = some b ∧
      copy_in_bounds (group_count dc lc sc g) s.current_row_ i (group_blob s g) b ∧
      t[g]? = some (b.write_row (group_count dc lc sc g) i
        ((group_blob s g).row (group_count dc lc sc g) s.current_row_)) := by
  subst hlen
  match top, h1, h3, h with
  | [b0], _, _, h =>
    rw [show [b0].length = 1 from rfl, Forward_copy_one] at h
    split_ifs at h with c
    injection h with h
    subst h
    refine ⟨rfl, ?_⟩
    intro g hg
    match g, hg with
    | 0, _ => exact ⟨b0, rfl, c, rfl⟩
  | [b0, b1], _, _, h =>
    rw [show [b0, b1].length = 2 from rfl, Forward_copy_two] at h
    split_ifs at h with c
    injection h with h
    subst h
    refine ⟨rfl, ?_⟩
    intro g hg
    match g, hg with
    | 0, _ => exact ⟨b0, rfl, c.1, rfl⟩
    | 1, _ => exact ⟨b1, rfl, c.2, rfl⟩
  | [b0, b1, b2], _, _, h =>
    rw [show [b0, b1, b2].length = 3 from rfl, Forward_copy_three] at h
    split_ifs at h with c
    injection h with h
    subst h
    refine ⟨rfl, ?_⟩
    intro g hg
    match g, hg with
    | 0, _ => exact ⟨b0, rfl, c.1, rfl⟩
    | 1, _ => exact ⟨b1, rfl, c.2.1, rfl⟩
    | 2, _ => exact ⟨b2, rfl, c.2.2, rfl⟩
  | [], h1, _, _ => simp at h1
  | _ :: _ :: _ :: _ :: _, _, h3, _ => simp at h3

theorem Forward_row_advance_error (fs : FileSystem) (n dc lc sc i : Nat)
    (self : HDF5DataLayer) (top : List Blob) (e : Failure)
    (h : Forward_advance fs n self = .error e) :
    Forward_row fs n dc lc sc i self top = .error e := by
  simp only [Forward_row, h, bind, Except.bind]

theorem Forward_row_advance_ok (fs : FileSystem) (n dc lc sc i : Nat)
    (self s : HDF5DataLayer) (top : List Blob)
    (h : Forward_advance fs n self = .ok s) :
    Forward_row fs n dc lc sc i self top =
      match Forward_copy n dc lc sc s top i with
      | .error e => .error e
      | .ok t => .ok ({ s with current_row_ := s.current_row_ + 1 }, t) := by
  simp only [Forward_row, h, bind, Except.bind, pure, Except.pure]
  cases Forward_copy n dc lc sc s top i <;> rfl

/-- A fatal advance reached after `k` successful iterations makes the whole
fill fatal. -/
theorem Forward_cpu_error_after (fs : FileSystem) (self s : HDF5DataLayer)
    (top t : List Blob) (dc lc sc k : Nat) (e : Failure)
    (hcounts : Forward_counts top = .ok (dc, lc, sc))
    (hk : (k : Int) < to_int self.layer_param_.batch_size)
    (hrun : Forward_loop fs top.length dc lc sc k 0 self top = .ok (s, t))
    (hadv : Forward_advance fs top.length s = .error e) :
    Forward_cpu fs self top = .error e := by
  unfold Forward_cpu
  simp only [hcounts]
  obtain ⟨m, hm⟩ : ∃ m, (to_int self.layer_param_.batch_size).toNat = k + (m + 1) :=
    ⟨(to_int self.layer_param_.batch_size).toNat - k - 1, by omega⟩
  rw [hm, Forward_loop_add, hrun]
  simp only [Forward_loop_succ, Forward_row_advance_error fs _ dc lc sc _ s t e hadv]

/-- With `batch_size ≤ 0` as an `int` (the parameter 0, or a parameter from
2^31 on) the loop of line 119 runs no iteration: once the per-row counts are
computed the fill returns with the layer and the buffers as they were. -/
theorem Forward_cpu_no_iteration (fs : FileSystem) (self : HDF5DataLayer)
    (top : List Blob) (dc lc sc : Nat)
    (hcounts : Forward_counts top = .ok (dc, lc, sc))
    (hB : to_int self.layer_param_.batch_size ≤ 0) :
    Forward_cpu fs self top = .ok (self, top) := by
  unfold Forward_cpu
  simp only [hcounts]
  have h0 : (to_int self.layer_param_.batch_size).toNat = 0 := by omega
  rw [h0, Forward_loop_zero]

/-- The narrowing at the ends of the range: the parameter 2^31 - 1 is kept,
2^31 becomes -2^31 and 2^32 - 1 becomes -1; a fill with the parameter 2^32 - 1
into a buffer of three rows copies no row. -/
theorem to_int_example :
    to_int 2147483647 = 2147483647 ∧ to_int 2147483648 = -2147483648 ∧
    to_int 4294967295 = -1 ∧
    Forward_cpu fs_demo { layer_last_row with layer_param_ := ⟨"list.txt", 4294967295⟩ }
        (top_rows 3)
      = .ok ({ layer_last_row with layer_param_ := ⟨"list.txt", 4294967295⟩ }, top_rows 3) :=
  ⟨rfl, rfl, rfl, rfl⟩

theorem unrequested_kept_refl (n : Nat) (s : HDF5DataLayer) : unrequested_kept n s s :=
  ⟨fun _ => rfl, fun _ => rfl, rfl, rfl, rfl⟩

theorem unrequested_kept_trans (n : Nat) (s1 s2 s3 : HDF5DataLayer)
    (h12 : unrequested_kept n s1 s2) (h23 : unrequested_kept n s2 s3) :
    unrequested_kept n s1 s3 :=
  ⟨fun h => (h23.1 h).trans (h12.1 h), fun h => (h23.2.1 h).trans (h12.2.1 h),
   h23.2.2.1.trans h12.2.2.1, h23.2.2.2.1.trans h12.2.2.2.1,
   h23.2.2.2.2.trans h12.2.2.2.2⟩

theorem LoadHDF5FileData_kept (fs : FileSystem) (self s : HDF5DataLayer)
    (filename : String) (n : Nat) (h : LoadHDF5FileData fs self filename n = .ok s) :
    unrequested_kept n self s := by
  rcases LoadHDF5FileData_ok_cases fs self s filename n h with ⟨_, rfl⟩ | ⟨file, _, _, rfl⟩
  · exact unrequested_kept_refl n _
  · refine ⟨fun h1 => ?_, fun h2 => ?_, rfl, rfl, rfl⟩
    · have : ¬ 2 ≤ n := by omega
      simp [loaded, this]
    · have : ¬ 3 ≤ n := by omega
      simp [loaded, this]

theorem Forward_advance_stay (fs : FileSystem) (n : Nat) (self : HDF5DataLayer)
    (hrow : (self.current_row_ : Int) ≠ self.data_blob_.num) :
    Forward_advance fs n self = .ok self := by
  unfold Forward_advance
  rw [if_neg hrow]; rfl

theorem Forward_advance_single (fs : FileSystem) (n : Nat) (self : HDF5DataLayer)
    (hrow : self.current_row_ = self.data_blob_.num) (hfiles : ¬ 1 < self.num_files_) :
    Forward_advance fs n self = .ok { self with current_row_ := 0 } := by
  unfold Forward_advance
  rw [if_pos hrow]
  simp only [gt_iff_lt, hfiles, if_false, bind, Except.bind, pure, Except.pure]

theorem Forward_advance_no_name (fs : FileSystem) (n : Nat) (self : HDF5DataLayer)
    (hrow : self.current_row_ = self.data_blob_.num) (hfiles : 1 < self.num_files_)
    (hname : self.hdf_filenames_[next_file self]? = none) :
    Forward_advance fs n self = .error .undefined := by
  unfold Forward_advance
  unfold next_file at hname
  rw [if_pos hrow]
  by_cases hw : self.current_file_ + 1 = self.num_files_
  · simp only [hw, if_true] at hname ⊢
    simp only [hfiles, if_true, gt_iff_lt, hname, bind, Except.bind]
  · simp only [hw, if_false] at hname ⊢
    simp only [hfiles, if_true, gt_iff_lt, hname, bind, Except.bind]

/-- The three ways the advance of lines 120-130 returns. -/
theorem Forward_advance_cases (fs : FileSystem) (n : Nat) (self s : HDF5DataLayer)
    (h : Forward_advance fs n self = .ok s) :
    ((self.current_row_ : Int) ≠ self.data_blob_.num ∧ s = self) ∨
    (self.current_row_ = self.data_blob_.num ∧ ¬ 1 < self.num_files_ ∧
      s = { self with current_row_ := 0 }) ∨
    (self.current_row_ = self.data_blob_.num ∧ 1 < self.num_files_ ∧
      ∃ filename s1, self.hdf_filenames_[next_file self]? = some filename ∧
        LoadHDF5FileData fs { self with current_file_ := next_file self } filename n
          = .ok s1 ∧
        s = { s1 with current_row_ := 0 }) := by
  by_cases hrow : self.current_row_ = self.data_blob_.num
  · by_cases hfiles : 1 < self.num_files_
    · right; right
      refine ⟨hrow, hfiles, ?_⟩
      cases hname : self.hdf_filenames_[next_file self]? with
      | none =>
        rw [Forward_advance_no_name fs n self hrow hfiles hname] at h
        cases h
      | some filename =>
        rw [Forward_advance_switch fs n self filename hrow hfiles hname] at h
        cases hl : LoadHDF5FileData fs { self with current_file_ := next_file self }
            filename n with
        | error e => rw [hl] at h; cases h
        | ok s1 =>
          rw [hl] at h
          exact ⟨filename, s1, rfl, hl, (Except.ok.inj h).symm⟩
    · right; left
      rw [Forward_advance_single fs n self hrow hfiles] at h
      exact ⟨hrow, hfiles, (Except.ok.inj h).symm⟩
  · left
    rw [Forward_advance_stay fs n self hrow] at h
    exact ⟨hrow, (Except.ok.inj h).symm⟩

theorem Forward_advance_kept (fs : FileSystem) (n : Nat) (self s : HDF5DataLayer)
    (h : Forward_advance fs n self = .ok s) : unrequested_kept n self s := by
  rcases Forward_advance_cases fs n self s h with ⟨_, rfl⟩ | ⟨_, _, rfl⟩ |
    ⟨_, _, filename, s1, _, hl, rfl⟩
  · exact unrequested_kept_refl n _
  · exact unrequested_kept_refl n _
  · have hk := LoadHDF5FileData_kept fs _ s1 filename n hl
    exact ⟨hk.1, hk.2.1, hk.2.2.1, hk.2.2.2.1, hk.2.2.2.2⟩

theorem copy_row_length (n : Nat) (blob : Blob) (r : Nat) (top t : List Blob) (g i : Nat)
    (h : copy_row n blob r top g i = .ok t) : t.length = top.length := by
  rw [copy_row_eq] at h
  split at h
  · cases h
  · split_ifs at h
    injection h with h
    subst h
    simp

theorem Forward_copy_length (n dc lc sc i : Nat) (s : HDF5DataLayer) (top t : List Blob)
    (h : Forward_copy n dc lc sc s top i = .ok t) : t.length = top.length := by
  unfold Forward_copy at h
  simp only [bind, Except.bind, pure, Except.pure] at h
  cases h0 : copy_row dc s.data_blob_ s.current_row_ top 0 i with
  | error e => simp [h0] at h
  | ok t0 =>
    have l0 := copy_row_length _ _ _ _ _ _ _ h0
    simp only [h0] at h
    by_cases h2 : n ≥ 2
    · simp only [h2, if_true] at h
      cases h1 : copy_row lc s.label_blob_ s.current_row_ t0 1 i with
      | error e => simp [h1] at h
      | ok t1 =>
        have l1 := copy_row_length _ _ _ _ _ _ _ h1
        simp only [h1] at h
        by_cases h3 : n ≥ 3
        · simp only [h3, if_true] at h
          have l2 := copy_row_length _ _ _ _ _ _ _ h
          omega
        · simp only [h3, if_false] at h
          injection h with h
          subst h
          omega
    · simp only [h2, if_false] at h
      by_cases h3 : n ≥ 3
      · omega
      · simp only [h3, if_false] at h
        injection h with h
        subst h
        omega

/-- What one iteration of the fill loop does, read off a returning call. -/
theorem Forward_row_ok_cases (fs : FileSystem) (n dc lc sc i : Nat)
    (self s : HDF5DataLayer) (top t : List Blob)
    (h : Forward_row fs n dc lc sc i self top = .ok (s, t)) :
    ∃ s1, Forward_advance fs n self = .ok s1 ∧
      Forward_copy n dc lc sc s1 top i = .ok t ∧
      s = { s1 with current_row_ := s1.current_row_ + 1 } := by
  cases ha : Forward_advance fs n self with
  | error e =>
    rw [Forward_row_advance_error fs n dc lc sc i self top e ha] at h
    cases h
  | ok s1 =>
    rw [Forward_row_advance_ok fs n dc lc sc i self s1 top ha] at h
    cases hc : Forward_copy n dc lc sc s1 top i with
    | error e => rw [hc] at h; cases h
    | ok t1 =>
      rw [hc] at h
      injection h with h
      injection h with h1 h2
      exact ⟨s1, rfl, h2 ▸ hc, h1.symm⟩

theorem Forward_row_kept (fs : FileSystem) (n dc lc sc i : Nat)
    (self s : HDF5DataLayer) (top t : List Blob)
    (h : Forward_row fs n dc lc sc i self top = .ok (s, t)) :
    unrequested_kept n self s ∧ t.length = top.length := by
  obtain ⟨s1, ha, hc, rfl⟩ := Forward_row_ok_cases fs n dc lc sc i self s top t h
  exact ⟨Forward_advance_kept fs n self s1 ha, Forward_copy_length n dc lc sc i s1 top t hc⟩

theorem Forward_loop_kept (fs : FileSystem) (n dc lc sc : Nat) (todo : Nat) :
    ∀ (i : Nat) (self s : HDF5DataLayer) (top t : List Blob),
      Forward_loop fs n dc lc sc todo i self top = .ok (s, t) →
      unrequested_kept n self s ∧ t.length = top.length := by
  induction todo with
  | zero =>
    intro i self s top t h
    rw [Forward_loop_zero] at h
    injection h with h
    injection h with h1 h2
    subst h1; subst h2
    exact ⟨unrequested_kept_refl n _, rfl⟩
  | succ todo ih =>
    intro i self s top t h
    rw [Forward_loop_succ] at h
    cases hr : Forward_row fs n dc lc sc i self top with
    | error e => rw [hr] at h; cases h
    | ok r =>
      obtain ⟨s1, t1⟩ := r
      rw [hr] at h
      have h1 := Forward_row_kept fs n dc lc sc i self s1 top t1 hr
      have h2 := ih (i + 1) s1 s t1 t h
      exact ⟨unrequested_kept_trans n _ _ _ h1.1 h2.1, h2.2.trans h1.2⟩

theorem Forward_cpu_kept (fs : FileSystem) (self s : HDF5DataLayer) (top t : List Blob)
    (h : Forward_cpu fs self top = .ok (s, t)) :
    unrequested_kept top.length self s ∧ t.length = top.length := by
  unfold Forward_cpu at h
  split at h
  · cases h
  · exact Forward_loop_kept fs _ _ _ _ _ _ _ _ _ _ h

theorem LayerSetUp_kept (fs : FileSystem) (self s : HDF5DataLayer) (top t : List Blob)
    (h : LayerSetUp fs self top = .ok (s, t)) :
    (top.length ≤ 1 → s.label_blob_ = self.label_blob_) ∧
    (top.length ≤ 2 → s.sample_weight_blob_ = self.sample_weight_blob_) ∧
    t.length = top.length := by
  obtain ⟨filename, s1, hname, hload, hn, rfl⟩ := LayerSetUp_ok_cases fs self s top t h
  obtain ⟨t1, ht1, hlen, _⟩ := LayerSetUp_after_load fs self s1 top filename hname hload hn
  rw [ht1] at h
  injection h with h
  injection h with _ h2
  subst h2
  have hk := LoadHDF5FileData_kept fs _ s1 filename top.length hload
  have hf := LayerSetUp_filenames_frame fs self
  exact ⟨fun h1 => (hk.1 h1).trans hf.2.2.2.2.1, fun h2 => (hk.2.1 h2).trans hf.2.2.2.2.2.1,
    hlen⟩

/-- After a successful load the requested arrays are those of the file. -/
theorem group_blob_loaded (self : HDF5DataLayer) (file : H5File) (n g : Nat) (hg : g < n) :
    group_blob (loaded self file n) g = file_blob file (group_name g) := by
  match g with
  | 0 => simp [group_blob, loaded, group_name]; omega
  | 1 => simp [group_blob, loaded, group_name]; omega
  | g + 2 => simp [group_blob, loaded, group_name]; omega

/-- The arrays that were not requested are left as they were. -/
theorem group_blob_loaded_frame (self : HDF5DataLayer) (file : H5File) (n g : Nat)
    (hg : n ≤ g) (hg2 : g ≤ 2) :
    group_blob (loaded self file n) g = group_blob self g := by
  match g with
  | 0 => simp [group_blob, loaded]; omega
  | 1 => simp [group_blob, loaded]; omega
  | 2 => simp [group_blob, loaded]; omega
  | g + 3 => omega

/-! ## Lemmas on rows -/

theorem row_length (b : Blob) (c r : Nat) (h : r * c + c ≤ b.data.length) :
    (b.row c r).length = c := by
  unfold Blob.row
  rw [List.length_take, List.length_drop]
  omega

/-- Reading back the row that was just written. -/
theorem row_write_row (b : Blob) (c i : Nat) (row : List Dtype)
    (hb : i * c + c ≤ b.data.length) (hrow : row.length = c) :
    (b.write_row c i row).row c i = row := by
  unfold Blob.row Blob.write_row
  have h1 : (b.data.take (i * c)).length = i * c := by
    rw [List.length_take]; omega
  simp only [List.append_assoc]
  rw [List.drop_append_of_le_length (by omega), List.drop_of_length_le (by omega),
    List.nil_append, List.take_append_of_le_length (by omega), List.take_of_length_le (by omega)]

theorem group_blob_row_cursor (s : HDF5DataLayer) (r g : Nat) :
    group_blob { s with current_row_ := r } g = group_blob s g := by
  match g with
  | 0 => rfl
  | 1 => rfl
  | _ + 2 => rfl

/-! ## Lemmas on the stream of rows -/

theorem rows_before_zero (fs : FileSystem) (fl : List String) : rows_before fs fl 0 = 0 := by
  cases fl <;> rfl

theorem rows_before_succ (fs : FileSystem) :
    ∀ (fl : List String) (j : Nat) (p : String), fl[j]? = some p →
      rows_before fs fl (j + 1) = rows_before fs fl j + path_rows fs p := by
  intro fl
  induction fl with
  | nil => intro j p h; simp at h
  | cons q qs ih =>
    intro j p h
    cases j with
    | zero =>
      simp at h
      subst h
      simp [rows_before, rows_before_zero]
    | succ j =>
      simp at h
      simp only [rows_before]
      rw [ih j p h]
      omega

theorem rows_before_mono (fs : FileSystem) :
    ∀ (fl : List String) (j k : Nat), j ≤ k → rows_before fs fl j ≤ rows_before fs fl k := by
  intro fl
  induction fl with
  | nil => intro j k _; simp [rows_before]
  | cons q qs ih =>
    intro j k hjk
    cases j with
    | zero => simp [rows_before]
    | succ j =>
      cases k with
      | zero => omega
      | succ k =>
        simp only [rows_before]
        have := ih j k (by omega)
        omega

/-- The end of file `j` is at most the total row count. -/
theorem rows_before_le_total (fs : FileSystem) (fl : List String) (j : Nat) (p : String)
    (h : fl[j]? = some p) :
    rows_before fs fl j + path_rows fs p ≤ total_rows fs fl := by
  rw [← rows_before_succ fs fl j p h]
  have hj : j < fl.length := (List.getElem?_eq_some.1 h).1
  exact rows_before_mono fs fl (j + 1) fl.length (by omega)

theorem load_listed (fs : FileSystem) (fl : List String) (n : Nat) (s : HDF5DataLayer)
    (p : String) (hfiles : files_load fs fl n) (hp : p ∈ fl) :
    LoadHDF5FileData fs s p n = .ok (loaded s (file_at fs p) n) := by
  obtain ⟨hopen, hok, _⟩ := hfiles p hp
  have ho : fs.H5Fopen p = some (file_at fs p) := by
    unfold file_at
    cases h : fs.H5Fopen p with
    | none => rw [h] at hopen; cases hopen
    | some f => rfl
  rw [LoadHDF5FileData_opened fs s p n _ ho, if_pos hok]

theorem cursor_ok_data (fs : FileSystem) (fl : List String) (n : Nat) (s : HDF5DataLayer)
    (h : cursor_ok fs fl n s) (hn : 1 ≤ n) (hfiles : files_load fs fl n) :
    ∃ p, fl[s.current_file_]? = some p ∧ p ∈ fl ∧ s.data_blob_ = path_blob fs p 0 ∧
      1 ≤ s.data_blob_.num ∧
      (∀ g, g < n → group_blob s g = path_blob fs p g) := by
  obtain ⟨p, hp, hb⟩ := h.blobs
  have hmem : p ∈ fl := List.getElem?_mem hp
  have hd : s.data_blob_ = path_blob fs p 0 := hb 0 (by omega)
  exact ⟨p, hp, hmem, hd, by rw [hd]; exact (hfiles p hmem).2.2, hb⟩

/-- Under the cursor invariant, with every file loading, the advance of lines
120-130 returns, keeps the invariant, leaves the row cursor strictly inside
the loaded file, and the position in the stream is reduced modulo the total. -/
theorem Forward_advance_cursor (fs : FileSystem) (fl : List String) (n : Nat)
    (s : HDF5DataLayer) (h : cursor_ok fs fl n s) (hn : 1 ≤ n)
    (hfiles : files_load fs fl n) :
    ∃ s1, Forward_advance fs n s = .ok s1 ∧ cursor_ok fs fl n s1 ∧
      s1.current_row_ < s1.data_blob_.num ∧
      stream_pos fs fl s1 = stream_pos fs fl s % total_rows fs fl ∧
      s1.layer_param_ = s.layer_param_ := by
  obtain ⟨p, hp, hmem, hd, hpos, hb⟩ := cursor_ok_data fs fl n s h hn hfiles
  have hR : path_rows fs p = s.data_blob_.num.toNat := by rw [path_rows, hd]
  have hend := rows_before_le_total fs fl s.current_file_ p hp
  rw [hR] at hend
  have hsucc := rows_before_succ fs fl s.current_file_ p hp
  rw [hR] at hsucc
  by_cases hrow : (s.current_row_ : Int) = s.data_blob_.num
  · have hrowN : s.current_row_ = s.data_blob_.num.toNat := by omega
    by_cases hN : 1 < s.num_files_
    · -- move to the next file
      have hnext_lt : next_file s < fl.length := by
        unfold next_file
        have := h.file_lt
        have := h.files
        split <;> omega
      obtain ⟨q, hq⟩ : ∃ q, fl[next_file s]? = some q :=
        ⟨_, List.getElem?_eq_getElem hnext_lt⟩
      have hqmem : q ∈ fl := List.getElem?_mem hq
      have hname : s.hdf_filenames_[next_file s]? = some q := by
        rw [h.names]; exact hq
      have hload := load_listed fs fl n { s with current_file_ := next_file s }
        q hfiles hqmem
      have hdata : (loaded { s with current_file_ := next_file s }
          (file_at fs q) n).data_blob_ = path_blob fs q 0 :=
        group_blob_loaded _ _ n 0 (by omega)
      have hqpos := (hfiles _ hqmem).2.2
      rw [← hdata] at hqpos
      refine ⟨{ loaded { s with current_file_ := next_file s } (file_at fs q) n with
                current_row_ := 0 }, ?_, ?_, ?_, ?_, ?_⟩
      · rw [Forward_advance_switch fs n s _ hrow hN hname, hload]
      · exact
          { names := h.names
            files := h.files
            file_lt := hnext_lt
            row_le := by
              show ((0 : Nat) : Int) ≤ (loaded { s with current_file_ := next_file s }
                (file_at fs q) n).data_blob_.num
              omega
            blobs := ⟨_, hq, fun g hg => by
              rw [group_blob_row_cursor]
              exact group_blob_loaded _ _ n g hg⟩ }
      · show ((0 : Nat) : Int) < (loaded { s with current_file_ := next_file s }
            (file_at fs q) n).data_blob_.num
        omega
      · show rows_before fs fl (next_file s) + 0 = _
        unfold stream_pos
        rw [hrowN, ← hsucc]
        unfold next_file
        by_cases hw : s.current_file_ + 1 = s.num_files_
        · rw [if_pos hw, rows_before_zero, hw, h.files]
          show 0 = total_rows fs fl % total_rows fs fl
          rw [Nat.mod_self]
        · rw [if_neg hw]
          have hlt : s.current_file_ + 1 < fl.length := by
            have := h.file_lt
            have := h.files
            omega
          have hq2 : fl[s.current_file_ + 1]? = some (fl[s.current_file_ + 1]) :=
            List.getElem?_eq_getElem hlt
          have hend2 := rows_before_le_total fs fl (s.current_file_ + 1) _ hq2
          have hpos2 := (hfiles _ (List.getElem?_mem hq2)).2.2
          simp only [path_rows] at hend2
          rw [Nat.add_zero, Nat.mod_eq_of_lt (by omega)]
      · rfl
    · -- a single file: pure cursor reset
      have hlen : fl.length = 1 := by
        have := h.file_lt
        have := h.files
        omega
      have hcf : s.current_file_ = 0 := by
        have := h.file_lt
        omega
      refine ⟨_, Forward_advance_single fs n s hrow hN, ?_, ?_, ?_, rfl⟩
      · exact
          { names := h.names
            files := h.files
            file_lt := h.file_lt
            row_le := by
              show ((0 : Nat) : Int) ≤ s.data_blob_.num
              omega
            blobs := ⟨p, hp, fun g hg => by rw [group_blob_row_cursor]; exact hb g hg⟩ }
      · show ((0 : Nat) : Int) < s.data_blob_.num
        omega
      · show rows_before fs fl s.current_file_ + 0 = _
        unfold stream_pos
        rw [hrowN, ← hsucc, hcf, rows_before_zero]
        have htot : rows_before fs fl (0 + 1) = total_rows fs fl := by
          unfold total_rows; rw [hlen]
        rw [htot, Nat.mod_self]
  · refine ⟨s, Forward_advance_stay fs n s hrow, h, ?_, ?_, rfl⟩
    · have := h.row_le
      omega
    · unfold stream_pos
      have := h.row_le
      rw [Nat.mod_eq_of_lt (by omega)]

theorem cursor_ok_in_range (fs : FileSystem) (fl : List String) (n : Nat)
    (s : HDF5DataLayer) (h : cursor_ok fs fl n s) : cursor_in_range s :=
  ⟨by rw [h.files]; exact h.file_lt, h.row_le⟩

theorem cursor_ok_next (fs : FileSystem) (fl : List String) (n : Nat) (s : HDF5DataLayer)
    (h : cursor_ok fs fl n s) (hrow : s.current_row_ < s.data_blob_.num) :
    cursor_ok fs fl n { s with current_row_ := s.current_row_ + 1 } := by
  obtain ⟨p, hp, hb⟩ := h.blobs
  exact
    { names := h.names
      files := h.files
      file_lt := h.file_lt
      row_le := by
        show ((s.current_row_ + 1 : Nat) : Int) ≤ s.data_blob_.num
        omega
      blobs := ⟨p, hp, fun g hg => by rw [group_blob_row_cursor]; exact hb g hg⟩ }

/-- The setup establishes the cursor invariant at file 0, row 0. -/
theorem LayerSetUp_cursor (fs : FileSystem) (self s : HDF5DataLayer) (top t : List Blob)
    (fl : List String)
    (hman : manifest_files fs self.layer_param_.source = fl)
    (hfiles : files_load fs fl top.length)
    (h : LayerSetUp fs self top = .ok (s, t)) :
    cursor_ok fs fl top.length s ∧ s.current_file_ = 0 ∧ s.current_row_ = 0 ∧
      s.layer_param_ = self.layer_param_ := by
  obtain ⟨filename, s1, hname, hload, hn, rfl⟩ := LayerSetUp_ok_cases fs self s top t h
  have hp := LayerSetUp_filenames_files fs self
  have hframe := LayerSetUp_filenames_frame fs self
  rw [hman] at hp
  rw [hp.1] at hname
  have hmem : filename ∈ fl := List.getElem?_mem hname
  rw [load_listed fs fl top.length _ filename hfiles hmem] at hload
  injection hload with hload
  subst hload
  refine ⟨?_, hframe.2.1, rfl, hframe.1⟩
  exact
    { names := hp.1
      files := hp.2
      file_lt := (List.getElem?_eq_some.1 hname).1
      row_le := by
        have hd := group_blob_loaded (LayerSetUp_filenames fs self) (file_at fs filename)
          top.length 0 (by omega)
        have h1 := (hfiles _ hmem).2.2
        unfold path_blob at h1
        rw [← hd] at h1
        show ((0 : Nat) : Int) ≤ (group_blob (loaded (LayerSetUp_filenames fs self)
          (file_at fs filename) top.length) 0).num
        omega
      blobs := ⟨filename, by
        show fl[(LayerSetUp_filenames fs self).current_file_]? = some filename
        rw [hframe.2.1]; exact hname,
        fun g hg => by
          rw [group_blob_row_cursor]
          exact group_blob_loaded _ _ _ g hg⟩ }

/-- One returning iteration keeps the cursor invariant and moves the position
in the stream one past its reduction modulo the total. -/
theorem Forward_row_cursor (fs : FileSystem) (fl : List String) (n dc lc sc i : Nat)
    (s s2 : HDF5DataLayer) (t t2 : List Blob)
    (hc : cursor_ok fs fl n s) (hn : 1 ≤ n) (hfiles : files_load fs fl n)
    (h : Forward_row fs n dc lc sc i s t = .ok (s2, t2)) :
    cursor_ok fs fl n s2 ∧
      stream_pos fs fl s2 = stream_pos fs fl s % total_rows fs fl + 1 ∧
      s2.layer_param_ = s.layer_param_ := by
  obtain ⟨s1, ha, _, rfl⟩ := Forward_row_ok_cases fs n dc lc sc i s s2 t t2 h
  obtain ⟨s1b, ha2, hc1, hrow, hpos, hlp⟩ := Forward_advance_cursor fs fl n s hc hn hfiles
  rw [ha] at ha2
  injection ha2 with ha2
  subst ha2
  refine ⟨cursor_ok_next fs fl n s1 hc1 hrow, ?_, hlp⟩
  rw [← hpos]
  unfold stream_pos
  show rows_before fs fl s1.current_file_ + (s1.current_row_ + 1) = _
  omega

/-- A returning run of the loop keeps the cursor invariant; after at least one
iteration the position is `(start + todo - 1) mod T + 1`. -/
theorem Forward_loop_cursor (fs : FileSystem) (fl : List String) (n dc lc sc : Nat)
    (hn : 1 ≤ n) (hfiles : files_load fs fl n) (todo : Nat) :
    ∀ (i : Nat) (s s2 : HDF5DataLayer) (t t2 : List Blob), cursor_ok fs fl n s →
      Forward_loop fs n dc lc sc todo i s t = .ok (s2, t2) →
      cursor_ok fs fl n s2 ∧ s2.layer_param_ = s.layer_param_ ∧
      (1 ≤ todo → stream_pos fs fl s2
        = (stream_pos fs fl s + todo - 1) % total_rows fs fl + 1) := by
  induction todo with
  | zero =>
    intro i s s2 t t2 hc h
    rw [Forward_loop_zero] at h
    injection h with h
    injection h with h1 h2
    subst h1
    exact ⟨hc, rfl, fun h0 => absurd h0 (by omega)⟩
  | succ todo ih =>
    intro i s s2 t t2 hc h
    rw [Forward_loop_succ] at h
    cases hr : Forward_row fs n dc lc sc i s t with
    | error e => rw [hr] at h; cases h
    | ok r =>
      obtain ⟨s1, t1⟩ := r
      rw [hr] at h
      replace h : Forward_loop fs n dc lc sc todo (i + 1) s1 t1 = .ok (s2, t2) := h
      obtain ⟨hc1, hpos1, hlp1⟩ := Forward_row_cursor fs fl n dc lc sc i s s1 t t1 hc hn hfiles hr
      obtain ⟨hc2, hlp2, hpos2⟩ := ih (i + 1) s1 s2 t1 t2 hc1 h
      refine ⟨hc2, hlp2.trans hlp1, fun _ => ?_⟩
      cases todo with
      | zero =>
        rw [Forward_loop_zero] at h
        injection h with h
        injection h with h1 h2
        subst h1
        rw [hpos1]
        simp
      | succ todo =>
        rw [hpos2 (by omega), hpos1]
        have e1 : stream_pos fs fl s % total_rows fs fl + 1 + (todo + 1) - 1
            = stream_pos fs fl s % total_rows fs fl + (todo + 1) := by omega
        have e2 : stream_pos fs fl s + (todo + 1 + 1) - 1
            = stream_pos fs fl s + (todo + 1) := by omega
        rw [e1, e2, Nat.mod_add_mod]

theorem Forward_cpu_cursor (fs : FileSystem) (fl : List String)
    (s s2 : HDF5DataLayer) (t t2 : List Blob)
    (hc : cursor_ok fs fl t.length s) (hn : 1 ≤ t.length) (hfiles : files_load fs fl t.length)
    (h : Forward_cpu fs s t = .ok (s2, t2)) :
    cursor_ok fs fl t.length s2 ∧ s2.layer_param_ = s.layer_param_ ∧
      (1 ≤ (to_int s.layer_param_.batch_size).toNat → stream_pos fs fl s2
        = (stream_pos fs fl s + (to_int s.layer_param_.batch_size).toNat - 1)
            % total_rows fs fl + 1) := by
  unfold Forward_cpu at h
  split at h
  · cases h
  · exact Forward_loop_cursor fs fl _ _ _ _ hn hfiles _ _ _ _ _ _ hc h

theorem Forward_times_cursor (fs : FileSystem) (fl : List String) (n : Nat)
    (hn : 1 ≤ n) (hfiles : files_load fs fl n) (k : Nat) :
    ∀ (s s2 : HDF5DataLayer) (t t2 : List Blob), t.length = n → cursor_ok fs fl n s →
      Forward_times fs k s t = .ok (s2, t2) → cursor_ok fs fl n s2 := by
  induction k with
  | zero =>
    intro s s2 t t2 _ hc h
    injection h with h
    injection h with h1 h2
    subst h1
    exact hc
  | succ k ih =>
    intro s s2 t t2 hlen hc h
    unfold Forward_times at h
    cases hr : Forward_cpu fs s t with
    | error e => rw [hr] at h; cases h
    | ok r =>
      obtain ⟨s1, t1⟩ := r
      rw [hr] at h
      subst hlen
      have hc1 := (Forward_cpu_cursor fs fl s s1 t t1 hc hn hfiles hr).1
      have hl1 := (Forward_cpu_kept fs s s1 t t1 hr).2
      exact ih s1 s2 t1 t2 hl1 hc1 h

/-! ## Lemmas on writing rows -/

theorem row_write_row_before (b : Blob) (c i j : Nat) (row : List Dtype)
    (hb : i * c + c ≤ b.data.length) (hj : j < i) :
    (b.write_row c i row).row c j = b.row c j := by
  unfold Blob.row Blob.write_row
  have hjc : j * c + c ≤ i * c := by
    have : (j + 1) * c ≤ i * c := Nat.mul_le_mul_right c hj
    rw [Nat.add_mul, Nat.one_mul] at this
    exact this
  have h1 : (b.data.take (i * c)).length = i * c := by
    rw [List.length_take]; omega
  simp only [List.append_assoc]
  rw [List.drop_append_of_le_length (by omega),
    List.take_append_of_le_length (by rw [List.length_drop]; omega)]
  apply List.ext_getElem?
  intro e
  simp only [List.getElem?_take, List.getElem?_drop]
  by_cases he : e < c
  · simp only [he, if_true]
    rw [if_pos (by omega)]
  · simp only [he, if_false]

/-- A run of at least one iteration ends with an iteration. -/
theorem Forward_loop_last (fs : FileSystem) (n dc lc sc todo i : Nat)
    (s s2 : HDF5DataLayer) (t t2 : List Blob)
    (h : Forward_loop fs n dc lc sc (todo + 1) i s t = .ok (s2, t2)) :
    ∃ sp tp, Forward_loop fs n dc lc sc todo i s t = .ok (sp, tp) ∧
      Forward_row fs n dc lc sc (i + todo) sp tp = .ok (s2, t2) := by
  rw [Forward_loop_add] at h
  cases hp : Forward_loop fs n dc lc sc todo i s t with
  | error e => rw [hp] at h; cases h
  | ok r =>
    obtain ⟨sp, tp⟩ := r
    rw [hp] at h
    replace h : Forward_loop fs n dc lc sc 1 (i + todo) sp tp = .ok (s2, t2) := h
    rw [Forward_loop_succ] at h
    cases hr : Forward_row fs n dc lc sc (i + todo) sp tp with
    | error e => rw [hr] at h; cases h
    | ok r2 =>
      obtain ⟨sq, tq⟩ := r2
      rw [hr] at h
      replace h : Except.ok (sq, tq) = Except.ok (s2, t2) := h
      injection h with h
      exact ⟨sp, tp, rfl, h ▸ hr⟩

/-- After a returning iteration the row cursor is at least 1. -/
theorem Forward_row_cursor_pos (fs : FileSystem) (n dc lc sc i : Nat)
    (s s2 : HDF5DataLayer) (t t2 : List Blob)
    (h : Forward_row fs n dc lc sc i s t = .ok (s2, t2)) : 1 ≤ s2.current_row_ := by
  obtain ⟨s1, _, _, rfl⟩ := Forward_row_ok_cases fs n dc lc sc i s s2 t t2 h
  show 1 ≤ s1.current_row_ + 1
  omega

/-- After a returning fill of at least one row the row cursor is at least 1. -/
theorem Forward_cpu_cursor_pos (fs : FileSystem) (s s2 : HDF5DataLayer) (t t2 : List Blob)
    (hB : 1 ≤ to_int s.layer_param_.batch_size)
    (h : Forward_cpu fs s t = .ok (s2, t2)) : 1 ≤ s2.current_row_ := by
  unfold Forward_cpu at h
  split at h
  · cases h
  · obtain ⟨b, hb⟩ : ∃ b, (to_int s.layer_param_.batch_size).toNat = b + 1 :=
      ⟨(to_int s.layer_param_.batch_size).toNat - 1, by omega⟩
    simp only [hb] at h
    obtain ⟨sp, tp, _, hr⟩ := Forward_loop_last fs _ _ _ _ b 0 s s2 t t2 h
    exact Forward_row_cursor_pos fs _ _ _ _ _ sp s2 tp t2 hr

/-! ## Setting up twice -/

theorem Reshape_Reshape (b : Blob) (B : Int) (ch h w : Nat) :
    (b.Reshape B ch h w).Reshape B ch h w = b.Reshape B ch h w := by
  unfold Blob.Reshape
  simp only []
  congr 1
  generalize B * (ch : Int) * (h : Int) * (w : Int) = N
  by_cases hlen : (b.data.length : Int) < N
  · have h2 : ¬ ((List.replicate N.toNat (0 : Dtype)).length : Int) < N := by
      rw [List.length_replicate]
      omega
    rw [if_pos hlen, if_neg h2]
  · rw [if_neg hlen, if_neg hlen]

/-- The parse only writes the file list, the file count and the file index. -/
theorem LayerSetUp_filenames_record (fs : FileSystem) (x : HDF5DataLayer) :
    LayerSetUp_filenames fs x =
      { x with hdf_filenames_ := manifest_files fs x.layer_param_.source
               num_files_ := (manifest_files fs x.layer_param_.source).length
               current_file_ := 0 } := by
  have h := LayerSetUp_filenames_files fs x
  have hf := LayerSetUp_filenames_frame fs x
  generalize LayerSetUp_filenames fs x = y at h hf
  obtain ⟨h1, h2⟩ := h
  obtain ⟨f1, f2, f3, f4, f5, f6, _⟩ := hf
  cases y
  cases x
  simp only [] at h1 h2 f1 f2 f3 f4 f5 f6
  subst h1 h2 f1 f2 f3 f4 f5 f6
  rfl

/-- Loading the same file again changes nothing. -/
theorem loaded_loaded (x : HDF5DataLayer) (file : H5File) (n r : Nat) :
    loaded { loaded x file n with current_row_ := r } file n
      = { loaded x file n with current_row_ := r } := by
  unfold loaded
  simp only []
  by_cases h1 : 1 ≤ n <;> by_cases h2 : 2 ≤ n <;> by_cases h3 : 3 ≤ n <;>
    simp [h1, h2, h3]

/-- The shapes a returning setup gives the first `min n 3` output buffers when
its first file opens: they are fixed by the batch size and the file alone. -/
theorem LayerSetUp_shapes_opened (fs : FileSystem) (self s : HDF5DataLayer)
    (top t : List Blob) (filename : String) (file : H5File)
    (h : LayerSetUp fs self top = .ok (s, t))
    (hfirst : (manifest_files fs self.layer_param_.source)[0]? = some filename)
    (hopen : fs.H5Fopen filename = some file) :
    ∀ g, g < top.length → g < 3 →
      (t[g]?).map Blob.shape = some (to_int self.layer_param_.batch_size,
        (file_blob file (group_name g)).channels, (file_blob file (group_name g)).height,
        (file_blob file (group_name g)).width) := by
  obtain ⟨filename2, sl, hname, hload, hn, rfl⟩ := LayerSetUp_ok_cases fs self s top t h
  have hframe := LayerSetUp_filenames_frame fs self
  have hname2 := hname
  rw [(LayerSetUp_filenames_files fs self).1, hfirst] at hname2
  injection hname2 with hname2
  subst hname2
  have hload2 := hload
  rw [LoadHDF5FileData_opened fs _ filename _ file hopen] at hload2
  split at hload2
  · injection hload2 with hload2
    subst hload2
    obtain ⟨t1, ht1, _, h0, hl1, hl2, _⟩ :=
      LayerSetUp_after_load fs self _ top filename hname hload hn
    rw [ht1] at h
    injection h with h
    injection h with _ h
    subst h
    have hbatch : (loaded (LayerSetUp_filenames fs self) file top.length).layer_param_
        = self.layer_param_ := hframe.1
    rw [hbatch] at h0 hl1 hl2
    have hblob : ∀ g, g < top.length →
        group_blob (loaded (LayerSetUp_filenames fs self) file top.length) g
          = file_blob file (group_name g) := fun g hg => group_blob_loaded _ _ _ g hg
    intro g hg hg3
    match g, hg, hg3 with
    | 0, hg, _ =>
      have hb := hblob 0 hg
      simp only [group_blob] at hb
      rw [h0 _ (List.getElem?_eq_getElem hg), hb]; rfl
    | 1, hg, _ =>
      have hb := hblob 1 hg
      simp only [group_blob] at hb
      rw [hl1 _ (List.getElem?_eq_getElem hg), hb]; rfl
    | 2, hg, _ =>
      have hb := hblob 2 hg
      simp only [group_blob] at hb
      rw [hl2 _ (List.getElem?_eq_getElem hg), hb]; rfl
    | g + 3, _, hg3 => omega
  · cases hload2

/-- A returning setup is a fixed point: run again on the layer and the buffers
it left, it returns the same layer and the same buffers. -/
theorem LayerSetUp_fixed (fs : FileSystem) (self s1 : HDF5DataLayer) (top t1 : List Blob)
    (h : LayerSetUp fs self top = .ok (s1, t1)) :
    LayerSetUp fs s1 t1 = .ok (s1, t1) := by
  obtain ⟨filename, sl, hname, hload, hn, rfl⟩ := LayerSetUp_ok_cases fs self s1 top t1 h
  obtain ⟨t, ht, hlen, h0, hl1, hl2, hrest⟩ :=
    LayerSetUp_after_load fs self sl top filename hname hload hn
  rw [ht] at h
  injection h with h
  injection h with _ h
  subst h
  have hfr := LoadHDF5FileData_frame fs _ sl filename top.length hload
  have hfiles := LayerSetUp_filenames_files fs self
  have hframe := LayerSetUp_filenames_frame fs self
  have hlp : sl.layer_param_ = self.layer_param_ := hfr.1.trans hframe.1
  -- the parse leaves the layer as it is
  have hparse : LayerSetUp_filenames fs { sl with current_row_ := 0 }
      = { sl with current_row_ := 0 } := by
    rw [LayerSetUp_filenames_record]
    have e1 : sl.hdf_filenames_ = manifest_files fs sl.layer_param_.source := by
      rw [hfr.2.1, hfiles.1, hlp]
    have e2 : sl.num_files_ = (manifest_files fs sl.layer_param_.source).length := by
      rw [hfr.2.2.1, hfiles.2, hlp]
    have e3 : sl.current_file_ = 0 := hfr.2.2.2.1.trans hframe.2.1
    cases sl
    simp only [] at e1 e2 e3 ⊢
    subst e1 e2 e3
    rfl
  -- the load leaves the layer as it is
  have hload2 : LoadHDF5FileData fs { sl with current_row_ := 0 } filename t.length
      = .ok { sl with current_row_ := 0 } := by
    rw [hlen]
    rcases LoadHDF5FileData_ok_cases fs _ sl filename top.length hload with
      ⟨hnone, _⟩ | ⟨file, hopen, hok, rfl⟩
    · exact LoadHDF5FileData_not_opened fs _ filename _ hnone
    · rw [LoadHDF5FileData_opened fs _ filename _ file hopen, if_pos hok, loaded_loaded]
  have hname3 : (LayerSetUp_filenames fs { sl with current_row_ := 0 }).hdf_filenames_[0]?
      = some filename := by
    rw [hparse]
    show sl.hdf_filenames_[0]? = some filename
    rw [hfr.2.1]; exact hname
  have hload3 : LoadHDF5FileData fs (LayerSetUp_filenames fs { sl with current_row_ := 0 })
      filename t.length = .ok { sl with current_row_ := 0 } := by
    rw [hparse]; exact hload2
  obtain ⟨t2, ht2, hlen2, g0, g1, g2, grest⟩ :=
    LayerSetUp_after_load fs { sl with current_row_ := 0 } { sl with current_row_ := 0 } t
      filename hname3 hload3 (by omega)
  rw [ht2]
  have htt : t2 = t := by
    apply List.ext_getElem?
    intro g
    by_cases hg : g < t.length
    · have hgt : g < top.length := by omega
      match g, hg, hgt with
      | 0, hg, hgt =>
        have e := h0 _ (List.getElem?_eq_getElem hgt)
        rw [g0 _ e, e]
        exact congrArg some (Reshape_Reshape _ _ _ _ _)
      | 1, hg, hgt =>
        have e := hl1 _ (List.getElem?_eq_getElem hgt)
        rw [g1 _ e, e]
        exact congrArg some (Reshape_Reshape _ _ _ _ _)
      | 2, hg, hgt =>
        have e := hl2 _ (List.getElem?_eq_getElem hgt)
        rw [g2 _ e, e]
        exact congrArg some (Reshape_Reshape _ _ _ _ _)
      | g + 3, hg, hgt => exact grest (g + 3) (by omega)
    · rw [List.getElem?_eq_none (by omega), List.getElem?_eq_none (by omega)]
  rw [htt]

/-! ## Rank bounds -/

theorem group_rank_ok_iff (file : H5File) (name : String) (lo hi : Nat) :
    group_rank_ok file name lo hi = true ↔
      ∃ ds, file.datasets.lookup name = some ds ∧ lo ≤ ds.dims.length ∧
        ds.dims.length ≤ hi := by
  unfold group_rank_ok
  cases hl : file.datasets.lookup name with
  | none => simp
  | some ds => simp

theorem group_rank_ok_false (file : H5File) (name : String) (lo hi : Nat) (ds : H5Dataset)
    (hl : file.datasets.lookup name = some ds)
    (hout : ds.dims.length < lo ∨ hi < ds.dims.length) :
    group_rank_ok file name lo hi = false := by
  unfold group_rank_ok
  rw [hl]
  simp only [decide_eq_false_iff_not]
  omega

/-! ## A single file -/

/-- With at most one file the advance never reaches the loader: it is a reset
of the row cursor on an exhausted file, and nothing otherwise. -/
theorem Forward_advance_one_file (fs : FileSystem) (n : Nat) (s : HDF5DataLayer)
    (hN : ¬ 1 < s.num_files_) :
    Forward_advance fs n s =
      .ok (if s.current_row_ = s.data_blob_.num then { s with current_row_ := 0 } else s) := by
  by_cases hrow : s.current_row_ = s.data_blob_.num
  · rw [if_pos hrow, Forward_advance_single fs n s hrow hN]
  · rw [if_neg hrow, Forward_advance_stay fs n s hrow]

theorem Forward_row_one_file (fs fs2 : FileSystem) (n dc lc sc i : Nat) (s : HDF5DataLayer)
    (t : List Blob) (hN : ¬ 1 < s.num_files_) :
    Forward_row fs2 n dc lc sc i s t = Forward_row fs n dc lc sc i s t ∧
    ∀ s2 t2, Forward_row fs n dc lc sc i s t = .ok (s2, t2) → arrays_kept s s2 := by
  constructor
  · rw [Forward_row_advance_ok fs2 n dc lc sc i s _ t (Forward_advance_one_file fs2 n s hN),
      Forward_row_advance_ok fs n dc lc sc i s _ t (Forward_advance_one_file fs n s hN)]
  · intro s2 t2 h
    obtain ⟨s1, ha, _, rfl⟩ := Forward_row_ok_cases fs n dc lc sc i s s2 t t2 h
    rw [Forward_advance_one_file fs n s hN] at ha
    injection ha with ha
    subst ha
    split <;> exact ⟨rfl, rfl, rfl, rfl, rfl, rfl, rfl⟩

theorem Forward_loop_one_file (fs fs2 : FileSystem) (n dc lc sc : Nat) (todo : Nat) :
    ∀ (i : Nat) (s : HDF5DataLayer) (t : List Blob), ¬ 1 < s.num_files_ →
      Forward_loop fs2 n dc lc sc todo i s t = Forward_loop fs n dc lc sc todo i s t ∧
      ∀ s2 t2, Forward_loop fs n dc lc sc todo i s t = .ok (s2, t2) → arrays_kept s s2 := by
  induction todo with
  | zero =>
    intro i s t _
    refine ⟨rfl, fun s2 t2 h => ?_⟩
    rw [Forward_loop_zero] at h
    injection h with h
    injection h with h1 _
    subst h1
    exact ⟨rfl, rfl, rfl, rfl, rfl, rfl, rfl⟩
  | succ todo ih =>
    intro i s t hN
    obtain ⟨hrow, hkept⟩ := Forward_row_one_file fs fs2 n dc lc sc i s t hN
    rw [Forward_loop_succ, Forward_loop_succ, hrow]
    cases hr : Forward_row fs n dc lc sc i s t with
    | error e => exact ⟨rfl, fun s2 t2 h => by cases h⟩
    | ok r =>
      obtain ⟨s1, t1⟩ := r
      have hk1 := hkept s1 t1 hr
      have hN1 : ¬ 1 < s1.num_files_ := by rw [hk1.2.2.2.2.2.1]; exact hN
      obtain ⟨heq, hk⟩ := ih (i + 1) s1 t1 hN1
      refine ⟨heq, fun s2 t2 h => ?_⟩
      have hk2 := hk s2 t2 h
      exact ⟨hk2.1.trans hk1.1, hk2.2.1.trans hk1.2.1, hk2.2.2.1.trans hk1.2.2.1,
        hk2.2.2.2.1.trans hk1.2.2.2.1, hk2.2.2.2.2.1.trans hk1.2.2.2.2.1,
        hk2.2.2.2.2.2.1.trans hk1.2.2.2.2.2.1, hk2.2.2.2.2.2.2.trans hk1.2.2.2.2.2.2⟩

/-! ## The accesses of a fill -/

/-- A returning run of the loop from output row `i` leaves the rows before `i`
of every requested output buffer as they were. -/
theorem Forward_loop_rows_kept (fs : FileSystem) (n dc lc sc : Nat)
    (h1 : 1 ≤ n) (h3 : n ≤ 3) (todo : Nat) :
    ∀ (i : Nat) (s s2 : HDF5DataLayer) (t t2 : List Blob), t.length = n →
      Forward_loop fs n dc lc sc todo i s t = .ok (s2, t2) →
      ∀ g, g < n → ∃ b b2, t[g]? = some b ∧ t2[g]? = some b2 ∧
        ∀ j, j < i → b2.row (group_count dc lc sc g) j
          = b.row (group_count dc lc sc g) j := by
  induction todo with
  | zero =>
    intro i s s2 t t2 hlt h g hg
    rw [Forward_loop_zero] at h
    injection h with h
    injection h with hs ht
    subst hs; subst ht
    have hgt : g < t.length := by omega
    exact ⟨t[g], t[g], List.getElem?_eq_getElem hgt, List.getElem?_eq_getElem hgt,
      fun _ _ => rfl⟩
  | succ todo ih =>
    intro i s s2 t t2 hlt h g hg
    rw [Forward_loop_succ] at h
    cases hr : Forward_row fs n dc lc sc i s t with
    | error e => rw [hr] at h; cases h
    | ok r =>
      obtain ⟨s1, t1⟩ := r
      rw [hr] at h
      replace h : Forward_loop fs n dc lc sc todo (i + 1) s1 t1 = .ok (s2, t2) := h
      obtain ⟨sa, ha, hcopy, rfl⟩ := Forward_row_ok_cases fs n dc lc sc i s s1 t t1 hr
      obtain ⟨hlt1, hrows⟩ := Forward_copy_ok_elim n dc lc sc i sa t t1 hlt h1 h3 hcopy
      obtain ⟨b, hb, hbb, ht1⟩ := hrows g hg
      obtain ⟨b1, b2, hb1, hb2, hkept⟩ := ih (i + 1) _ s2 t1 t2 hlt1 h g hg
      rw [ht1] at hb1
      injection hb1 with hb1
      subst hb1
      exact ⟨b, b2, hb, hb2, fun j hj => by
        rw [hkept j (by omega), row_write_row_before b _ i j _ hbb.2 hj]⟩

/-- In a returning run of the loop, iteration `k` (counted from 0) starts from
the layer and the buffers the first `k` iterations leave; its exhaustion
handling returns, and row `i + k` of every requested output buffer at the end
of the run is the row at the cursor of the matching array loaded then. -/
theorem Forward_loop_rows (fs : FileSystem) (n dc lc sc : Nat)
    (h1 : 1 ≤ n) (h3 : n ≤ 3) (todo k i : Nat) (s s2 : HDF5DataLayer) (t t2 : List Blob)
    (hlt : t.length = n) (hk : k < todo)
    (h : Forward_loop fs n dc lc sc todo i s t = .ok (s2, t2)) :
    ∃ sk tk sa, Forward_loop fs n dc lc sc k i s t = .ok (sk, tk) ∧
      Forward_advance fs n sk = .ok sa ∧
      ∀ g, g < n → ∃ b2, t2[g]? = some b2 ∧
        b2.row (group_count dc lc sc g) (i + k)
          = (group_blob sa g).row (group_count dc lc sc g) sa.current_row_ := by
  obtain ⟨m, rfl⟩ : ∃ m, todo = k + (m + 1) := ⟨todo - k - 1, by omega⟩
  rw [Forward_loop_add] at h
  cases hp : Forward_loop fs n dc lc sc k i s t with
  | error e => rw [hp] at h; cases h
  | ok r =>
    obtain ⟨sk, tk⟩ := r
    rw [hp] at h
    replace h : Forward_loop fs n dc lc sc (m + 1) (i + k) sk tk = .ok (s2, t2) := h
    rw [Forward_loop_succ] at h
    cases hr : Forward_row fs n dc lc sc (i + k) sk tk with
    | error e => rw [hr] at h; cases h
    | ok r1 =>
      obtain ⟨s1, t1⟩ := r1
      rw [hr] at h
      replace h : Forward_loop fs n dc lc sc m (i + k + 1) s1 t1 = .ok (s2, t2) := h
      have hltk : tk.length = n := (Forward_loop_kept fs n dc lc sc k i s sk t tk hp).2.trans hlt
      obtain ⟨sa, ha, hcopy, rfl⟩ := Forward_row_ok_cases fs n dc lc sc (i + k) sk s1 tk t1 hr
      obtain ⟨hlt1, hrows⟩ := Forward_copy_ok_elim n dc lc sc (i + k) sa tk t1 hltk h1 h3 hcopy
      refine ⟨sk, tk, sa, rfl, ha, fun g hg => ?_⟩
      obtain ⟨b, hb, hbb, ht1⟩ := hrows g hg
      obtain ⟨b1, b2, hb1, hb2, hkept⟩ := Forward_loop_rows_kept fs n dc lc sc h1 h3 m
        (i + k + 1) _ s2 t1 t2 hlt1 h g hg
      rw [ht1] at hb1
      injection hb1 with hb1
      subst hb1
      refine ⟨b2, hb2, ?_⟩
      rw [hkept (i + k) (by omega),
        row_write_row b _ (i + k) _ hbb.2 (row_length _ _ _ hbb.1)]

/-! ## Claims -/

/-- C4: a file that opens and whose requested groups have in-range ranks, but
whose label group (with at least two requested groups) or sample_weight group
(with three) has a row count different from the data group, makes
`LoadHDF5FileData` fatal; consequently a setup whose first file it is, and a
fill that reaches a reload of it, are fatal as well. The fill reaches the
reload in its iteration `k`, one the loop runs: `k < batch_size` for the
`const int batch_size` of line 112. -/
theorem row_count_mismatch_is_fatal (fs : FileSystem) (filename : String)
    (file : H5File) (n : Nat)
    (hopen : fs.H5Fopen filename = some file)
    (_hdata : group_rank_ok file "data" 2 4 = true)
    (_hlabel : 2 ≤ n → group_rank_ok file "label" 1 2 = true)
    (_hweight : 3 ≤ n → group_rank_ok file "sample_weight" 1 2 = true)
    (hmis : (2 ≤ n ∧ group_rows file "label" ≠ group_rows file "data") ∨
            (3 ≤ n ∧ group_rows file "sample_weight" ≠ group_rows file "data")) :
    (∀ self, LoadHDF5FileData fs self filename n = .error .fatal) ∧
    (∀ self top, top.length = n →
      (LayerSetUp_filenames fs self).hdf_filenames_[0]? = some filename →
      LayerSetUp fs self top = .error .fatal) ∧
    (∀ self top dc lc sc (k : Nat) (s : HDF5DataLayer) t, top.length = n →
      Forward_counts top = .ok (dc, lc, sc) →
      (k : Int) < to_int self.layer_param_.batch_size →
      Forward_loop fs n dc lc sc k 0 self top = .ok (s, t) →
      (s.current_row_ : Int) = s.data_blob_.num → 1 < s.num_files_ →
      s.hdf_filenames_[next_file s]? = some filename →
      Forward_cpu fs self top = .error .fatal) := by
  have hload : ∀ self, LoadHDF5FileData fs self filename n = .error .fatal := by
    intro self
    rw [LoadHDF5FileData_opened fs self filename n file hopen,
      loads_ok_false_of_mismatch file n hmis]
    rfl
  refine ⟨hload, ?_, ?_⟩
  · intro self top hlen hname
    subst hlen
    exact LayerSetUp_load_error fs self top filename _ hname (hload _)
  · intro self top dc lc sc k s t hlen hcounts hk hrun hrow hfiles hname
    subst hlen
    refine Forward_cpu_error_after fs self s top t dc lc sc k _ hcounts hk hrun ?_
    rw [Forward_advance_switch fs _ s filename hrow hfiles hname, hload]

/-- C4, at the example file whose label group has three rows for two data rows:
the load is fatal, and so is a fill over `a.h5` followed by that file. -/
theorem row_count_mismatch_is_fatal_witness :
    fs_demo.H5Fopen "mismatch.h5" = some file_mismatch ∧
    group_rows file_mismatch "label" ≠ group_rows file_mismatch "data" ∧
    LoadHDF5FileData fs_demo (fresh_layer "bad.txt" 3) "mismatch.h5" 2 = .error .fatal ∧
    (∃ s t, LayerSetUp fs_demo (fresh_layer "bad.txt" 3) [Blob.empty, Blob.empty]
        = .ok (s, t) ∧ Forward_cpu fs_demo s t = .error .fatal) :=
  ⟨by decide, by decide,
   (row_count_mismatch_is_fatal fs_demo "mismatch.h5" file_mismatch 2 (by decide)
      (by decide) (by decide) (by decide) (Or.inl (by decide))).1 _,
   ⟨_, _, rfl, rfl⟩⟩

/-- C5, the code against the claim: `gone.h5` fails to open, and lines 31-34
log the failure and return where every other failure of the loader is a fatal
`CHECK`. So the setup whose only file is `gone.h5` returns normally, and the
fill that reaches the load of `gone.h5` (after the single row of `one.h5`)
returns normally too, with the file index at `gone.h5` and the row of `one.h5`
delivered a second time as if it were a row of `gone.h5`. -/
theorem open_failure_not_fatal :
    fs_demo.H5Fopen "gone.h5" = none ∧
    LayerSetUp fs_demo (fresh_layer "none.txt" 2) [Blob.empty] =
      .ok ({ fresh_layer "none.txt" 2 with hdf_filenames_ := ["gone.h5"], num_files_ := 1 },
           [⟨2, 0, 0, 0, []⟩]) ∧
    (∃ s t, LayerSetUp fs_demo (fresh_layer "gone.txt" 2) [Blob.empty] = .ok (s, t) ∧
      s.hdf_filenames_ = ["one.h5", "gone.h5"] ∧
      Forward_cpu fs_demo s t =
        .ok ({ s with current_file_ := 1, current_row_ := 1 }, [⟨2, 1, 1, 1, [10, 10]⟩])) :=
  ⟨by decide, rfl, _, _, rfl, rfl, rfl⟩

/-- The behaviour of lines 31-34 at every path that fails to open: the load
returns normally. A setup whose first file it is (with at least one output
buffer) returns with the cursor at file 0, row 0 and the loaded arrays as they
were before; in a fill, the advance to that file returns with the file index
moved, the row cursor at 0 and the previously loaded arrays kept, and the
iteration goes on to copy from them. -/
theorem open_failure_returns_normally (fs : FileSystem) (filename : String)
    (hopen : fs.H5Fopen filename = none) :
    (∀ self top, 1 ≤ top.length →
      (LayerSetUp_filenames fs self).hdf_filenames_[0]? = some filename →
      ∃ s t, LayerSetUp fs self top = .ok (s, t) ∧
        s.current_file_ = 0 ∧ s.current_row_ = 0 ∧
        s.data_blob_ = self.data_blob_ ∧ s.label_blob_ = self.label_blob_ ∧
        s.sample_weight_blob_ = self.sample_weight_blob_) ∧
    (∀ self n dc lc sc i top, (self.current_row_ : Int) = self.data_blob_.num →
      1 < self.num_files_ →
      self.hdf_filenames_[next_file self]? = some filename →
      Forward_advance fs n self =
        .ok { self with current_file_ := next_file self, current_row_ := 0 } ∧
      Forward_row fs n dc lc sc i self top =
        match Forward_copy n dc lc sc
          { self with current_file_ := next_file self, current_row_ := 0 } top i with
        | .error e => .error e
        | .ok t => .ok ({ self with current_file_ := next_file self, current_row_ := 1 }, t)) := by
  constructor
  · intro self top hn hname
    obtain ⟨t, ht, _⟩ := LayerSetUp_after_load fs self _ top filename hname
      (LoadHDF5FileData_not_opened fs _ filename top.length hopen) hn
    have hf := LayerSetUp_filenames_frame fs self
    exact ⟨_, t, ht, hf.2.1, rfl, hf.2.2.2.1, hf.2.2.2.2.1, hf.2.2.2.2.2.1⟩
  · intro self n dc lc sc i top hrow hfiles hname
    have hadv : Forward_advance fs n self =
        .ok { self with current_file_ := next_file self, current_row_ := 0 } := by
      rw [Forward_advance_switch fs n self filename hrow hfiles hname,
        LoadHDF5FileData_not_opened fs _ filename n hopen]
    exact ⟨hadv, Forward_row_advance_ok fs n dc lc sc i self _ top hadv⟩

/-- The silent return at the manifest naming only `gone.h5`, which does not
open. -/
theorem open_failure_returns_normally_witness :
    fs_demo.H5Fopen "gone.h5" = none ∧
    ∃ s t, LayerSetUp fs_demo (fresh_layer "none.txt" 2) [Blob.empty] = .ok (s, t) ∧
      s.current_file_ = 0 ∧ s.current_row_ = 0 ∧
      s.data_blob_ = Blob.empty ∧ s.label_blob_ = Blob.empty ∧
      s.sample_weight_blob_ = Blob.empty :=
  ⟨by decide, (open_failure_returns_normally fs_demo "gone.h5" (by decide)).1
    (fresh_layer "none.txt" 2) [Blob.empty] (by decide) (by decide)⟩

/-- C6: when the path fails to open, `LoadHDF5FileData` returns with the data,
label and sample_weight arrays exactly as they were before the call, for every
group count. -/
theorem open_failure_leaves_arrays_untouched (fs : FileSystem) (self : HDF5DataLayer)
    (filename : String) (n : Nat) (hopen : fs.H5Fopen filename = none) :
    ∃ s, LoadHDF5FileData fs self filename n = .ok s ∧
      s.data_blob_ = self.data_blob_ ∧ s.label_blob_ = self.label_blob_ ∧
      s.sample_weight_blob_ = self.sample_weight_blob_ :=
  ⟨self, LoadHDF5FileData_not_opened fs self filename n hopen, rfl, rfl, rfl⟩

/-- C6, at a layer holding the arrays of `a.h5` and a path that does not open. -/
theorem open_failure_leaves_arrays_untouched_witness :
    fs_demo.H5Fopen "gone.h5" = none ∧
    ∃ s, LoadHDF5FileData fs_demo (loaded (fresh_layer "gone.txt" 2) file_a 3) "gone.h5" 3
        = .ok s ∧
      s.data_blob_ = file_blob file_a "data" ∧ s.label_blob_ = file_blob file_a "label" ∧
      s.sample_weight_blob_ = file_blob file_a "sample_weight" :=
  ⟨by decide, open_failure_leaves_arrays_untouched fs_demo
    (loaded (fresh_layer "gone.txt" 2) file_a 3) "gone.h5" 3 (by decide)⟩

/-- C9: the parse of the manifest leaves in `hdf_filenames_` exactly the
whitespace-delimited tokens of the manifest text, in manifest order, whatever
the list held before, with `num_files_` their number; a manifest that cannot
be opened gives the empty list. The same holds of the layer every returning
setup leaves. -/
theorem manifest_parsing (fs : FileSystem) (self : HDF5DataLayer) :
    (LayerSetUp_filenames fs self).hdf_filenames_
      = manifest_files fs self.layer_param_.source ∧
    (LayerSetUp_filenames fs self).num_files_
      = (manifest_files fs self.layer_param_.source).length ∧
    (fs.ifstream self.layer_param_.source = none →
      (LayerSetUp_filenames fs self).hdf_filenames_ = []) ∧
    (∀ top s t, LayerSetUp fs self top = .ok (s, t) →
      s.hdf_filenames_ = manifest_files fs self.layer_param_.source ∧
      s.num_files_ = (manifest_files fs self.layer_param_.source).length) := by
  obtain ⟨h1, h2⟩ := LayerSetUp_filenames_files fs self
  refine ⟨h1, h2, ?_, ?_⟩
  · intro hnone
    rw [h1, manifest_files, hnone]
  · intro top s t hs
    obtain ⟨filename, s1, _, hload, _, rfl⟩ := LayerSetUp_ok_cases fs self s top t hs
    have hf := LoadHDF5FileData_frame fs _ s1 filename top.length hload
    exact ⟨hf.2.1.trans h1, hf.2.2.1.trans h2⟩

/-- C9, at the example manifest `list.txt` and a layer whose list already
holds a stale name: the parse leaves the two tokens of the manifest. -/
theorem manifest_parsing_witness :
    manifest_files fs_demo "list.txt" = ["a.h5", "b.h5"] ∧
    (LayerSetUp_filenames fs_demo stale_layer).hdf_filenames_ = ["a.h5", "b.h5"] ∧
    (LayerSetUp_filenames fs_demo stale_layer).num_files_ = 2 :=
  ⟨by decide, (manifest_parsing fs_demo stale_layer).1.trans (by decide),
   (manifest_parsing fs_demo stale_layer).2.1.trans (by decide)⟩

/-- C8: for a manifest whose first path opens and loads successfully, every
batch size in the range of `int` (the type the code gives `batch_size` at
line 91) and every group count `n` in {1,2,3} (the number of output buffers),
the setup returns; it leaves `current_file_ = 0`, `current_row_ = 0`, the file
list of the manifest, the first `n` loaded arrays equal to the groups of the
first file, and output buffer `i < n` shaped
`(batch_size, channels, height, width)` with the last three taken from the
`i`-th loaded array. -/
theorem setup_postcondition (fs : FileSystem) (self : HDF5DataLayer) (top : List Blob)
    (filename : String) (rest : List String) (file : H5File)
    (hman : manifest_files fs self.layer_param_.source = filename :: rest)
    (hopen : fs.H5Fopen filename = some file)
    (hok : loads_ok file top.length = true)
    (hn : 1 ≤ top.length) (hn3 : top.length ≤ 3)
    (hB : self.layer_param_.batch_size < 2 ^ 31) :
    ∃ s t, LayerSetUp fs self top = .ok (s, t) ∧
      s.current_file_ = 0 ∧ s.current_row_ = 0 ∧
      s.hdf_filenames_ = filename :: rest ∧ s.num_files_ = rest.length + 1 ∧
      s.layer_param_ = self.layer_param_ ∧
      t.length = top.length ∧
      ∀ i, i < top.length →
        group_blob s i = file_blob file (group_name i) ∧
        (t[i]?).map Blob.shape = some ((self.layer_param_.batch_size : Int),
          (group_blob s i).channels, (group_blob s i).height, (group_blob s i).width) := by
  have hp := LayerSetUp_filenames_files fs self
  have hframe := LayerSetUp_filenames_frame fs self
  have hname : (LayerSetUp_filenames fs self).hdf_filenames_[0]? = some filename := by
    rw [hp.1, hman]; simp
  have hload : LoadHDF5FileData fs (LayerSetUp_filenames fs self) filename top.length
      = .ok (loaded (LayerSetUp_filenames fs self) file top.length) := by
    rw [LoadHDF5FileData_opened fs _ filename _ file hopen, if_pos hok]
  obtain ⟨t, ht, hlen, h0, h1, h2, _⟩ :=
    LayerSetUp_after_load fs self _ top filename hname hload hn
  refine ⟨_, t, ht, hframe.2.1, rfl, ?_, ?_, hframe.1, hlen, ?_⟩
  · show (LayerSetUp_filenames fs self).hdf_filenames_ = _
    rw [hp.1, hman]
  · show (LayerSetUp_filenames fs self).num_files_ = _
    rw [hp.2, hman]; rfl
  · intro i hi
    have hb : group_blob { loaded (LayerSetUp_filenames fs self) file top.length with
        current_row_ := 0 } i = file_blob file (group_name i) :=
      group_blob_loaded (LayerSetUp_filenames fs self) file top.length i hi
    refine ⟨hb, ?_⟩
    have hbatch : (loaded (LayerSetUp_filenames fs self) file top.length).layer_param_
        = self.layer_param_ := hframe.1
    rw [hbatch, to_int_small _ hB] at h0 h1 h2
    match i, hi, hb with
    | 0, hi, hb =>
      rw [h0 _ (List.getElem?_eq_getElem hi)]; rfl
    | 1, hi, hb =>
      rw [h1 _ (List.getElem?_eq_getElem hi)]; rfl
    | 2, hi, hb =>
      rw [h2 _ (List.getElem?_eq_getElem hi)]; rfl
    | i + 3, hi, _ => omega

/-- C8, at the example manifest `list.txt` with three output buffers and batch
size 3: the setup returns with the cursor at file 0, row 0, the arrays of
`a.h5` loaded and the buffers shaped `(3, 1, 1, 1)`. -/
theorem setup_postcondition_witness :
    manifest_files fs_demo "list.txt" = "a.h5" :: ["b.h5"] ∧
    fs_demo.H5Fopen "a.h5" = some file_a ∧ loads_ok file_a 3 = true ∧
    ∃ s t, LayerSetUp fs_demo (fresh_layer "list.txt" 3) [Blob.empty, Blob.empty, Blob.empty]
        = .ok (s, t) ∧
      s.current_file_ = 0 ∧ s.current_row_ = 0 ∧
      s.hdf_filenames_ = "a.h5" :: ["b.h5"] ∧ s.num_files_ = 2 ∧
      s.layer_param_ = ⟨"list.txt", 3⟩ ∧
      t.length = 3 ∧
      ∀ i, i < 3 →
        group_blob s i = file_blob file_a (group_name i) ∧
        (t[i]?).map Blob.shape = some (3,
          (group_blob s i).channels, (group_blob s i).height, (group_blob s i).width) :=
  ⟨by decide, by decide, by decide,
   setup_postcondition fs_demo (fresh_layer "list.txt" 3) [Blob.empty, Blob.empty, Blob.empty]
     "a.h5" ["b.h5"] file_a (by decide) (by decide) (by decide) (by decide) (by decide)
     (by decide)⟩

/-- C7: group-count gating. A returning load, setup or fill with one group
leaves the label and sample_weight arrays as they were, and with two groups the
sample_weight array; the output buffer list keeps its length (there is no label
or sample_weight buffer to write with fewer groups). With one group the label
and sample_weight groups of the file are not looked at: the load succeeds
whatever they hold. With three groups every iteration of the fill writes row
`i` of each of the three output buffers from the matching loaded array, and a
returning fill has filled all three output buffers: for every iteration `i`
the loop runs (`i < batch_size`), row `i` of each output buffer the fill leaves
is the row at the cursor of the matching array (data, label, sample_weight)
loaded in that iteration, once its exhaustion handling is done. The same holds
of the one or two requested buffers with one or two groups. -/
theorem group_count_gating (fs : FileSystem) :
    (∀ self filename n s, LoadHDF5FileData fs self filename n = .ok s →
      (n ≤ 1 → s.label_blob_ = self.label_blob_) ∧
      (n ≤ 2 → s.sample_weight_blob_ = self.sample_weight_blob_)) ∧
    (∀ self filename file, fs.H5Fopen filename = some file →
      group_rank_ok file "data" 2 4 = true → file.close_ok = true →
      LoadHDF5FileData fs self filename 1
        = .ok { self with data_blob_ := file_blob file "data" }) ∧
    (∀ self top s t, LayerSetUp fs self top = .ok (s, t) →
      (top.length ≤ 1 → s.label_blob_ = self.label_blob_) ∧
      (top.length ≤ 2 → s.sample_weight_blob_ = self.sample_weight_blob_) ∧
      t.length = top.length) ∧
    (∀ self top s t, Forward_cpu fs self top = .ok (s, t) →
      (top.length ≤ 1 → s.label_blob_ = self.label_blob_) ∧
      (top.length ≤ 2 → s.sample_weight_blob_ = self.sample_weight_blob_) ∧
      t.length = top.length) ∧
    (∀ self top dc lc sc i s t, top.length = 3 →
      Forward_row fs 3 dc lc sc i self top = .ok (s, t) →
      ∀ g, g < 3 → ∃ b, t[g]? = some b ∧
        b.row (group_count dc lc sc g) i
          = (group_blob s g).row (group_count dc lc sc g) (s.current_row_ - 1)) ∧
    (∀ (self : HDF5DataLayer) (top : List Blob) s t, 1 ≤ top.length → top.length ≤ 3 →
      Forward_cpu fs self top = .ok (s, t) →
      ∃ dc lc sc, Forward_counts top = .ok (dc, lc, sc) ∧
        ∀ i : Nat, (i : Int) < to_int self.layer_param_.batch_size →
          ∃ si ti sa, Forward_loop fs top.length dc lc sc i 0 self top = .ok (si, ti) ∧
            Forward_advance fs top.length si = .ok sa ∧
            ∀ g, g < top.length → ∃ b, t[g]? = some b ∧
              b.row (group_count dc lc sc g) i
                = (group_blob sa g).row (group_count dc lc sc g) sa.current_row_) := by
  refine ⟨?_, ?_, ?_, ?_, ?_, ?_⟩
  · intro self filename n s h
    have hk := LoadHDF5FileData_kept fs self s filename n h
    exact ⟨hk.1, hk.2.1⟩
  · intro self filename file hopen hdata hclose
    rw [LoadHDF5FileData_opened fs self filename 1 file hopen]
    have hok : loads_ok file 1 = true := by simp [loads_ok, hdata, hclose]
    rw [if_pos hok]
    simp [loaded]
  · intro self top s t h
    exact LayerSetUp_kept fs self s top t h
  · intro self top s t h
    have hk := Forward_cpu_kept fs self s top t h
    exact ⟨hk.1.1, hk.1.2.1, hk.2⟩
  · intro self top dc lc sc i s t hlen h g hg
    obtain ⟨s1, _, hc, rfl⟩ := Forward_row_ok_cases fs 3 dc lc sc i self s top t h
    obtain ⟨_, hrows⟩ := Forward_copy_ok_elim 3 dc lc sc i s1 top t hlen (by omega)
      (by omega) hc
    obtain ⟨b, _, hbounds, ht⟩ := hrows g hg
    refine ⟨_, ht, ?_⟩
    rw [row_write_row b _ i _ hbounds.2 (row_length _ _ _ hbounds.1)]
    have hcur := group_blob_row_cursor s1 (s1.current_row_ + 1) g
    simp only [] at hcur
    rw [hcur]
    simp
  · intro self top s t h1 h3 h
    unfold Forward_cpu at h
    cases hcnt : Forward_counts top with
    | error e => rw [hcnt] at h; cases h
    | ok r =>
      obtain ⟨dc, lc, sc⟩ := r
      rw [hcnt] at h
      replace h : Forward_loop fs top.length dc lc sc
          (to_int self.layer_param_.batch_size).toNat 0 self top = .ok (s, t) := h
      refine ⟨dc, lc, sc, rfl, fun i hi => ?_⟩
      obtain ⟨si, ti, sa, hloop, ha, hrows⟩ := Forward_loop_rows fs top.length dc lc sc h1 h3
        _ i 0 self s top t rfl (by omega) h
      refine ⟨si, ti, sa, hloop, ha, fun g hg => ?_⟩
      obtain ⟨b, hb, hrow⟩ := hrows g hg
      rw [Nat.zero_add] at hrow
      exact ⟨b, hb, hrow⟩

/-- C7, at the example file whose label group disagrees with its data group:
with one requested group the load succeeds and only the data array changes;
and at the example manifest `list.txt` with three groups and batch size 3: the
fill after the setup returns with the rows `a0 a1 b0` of the data, the label
and the sample_weight group in the three output buffers, each row being the
row at the cursor of the array loaded in its iteration. -/
theorem group_count_gating_witness :
    fs_demo.H5Fopen "mismatch.h5" = some file_mismatch ∧
    group_rows file_mismatch "label" ≠ group_rows file_mismatch "data" ∧
    LoadHDF5FileData fs_demo (loaded (fresh_layer "bad.txt" 3) file_a 3) "mismatch.h5" 1
      = .ok { loaded (fresh_layer "bad.txt" 3) file_a 3 with
              data_blob_ := file_blob file_mismatch "data" } ∧
    ∃ s0 t0 s t,
      LayerSetUp fs_demo (fresh_layer "list.txt" 3) [Blob.empty, Blob.empty, Blob.empty]
        = .ok (s0, t0) ∧
      t0.length = 3 ∧
      Forward_cpu fs_demo s0 t0 = .ok (s, t) ∧
      t.map Blob.data = [[10, 11, 20], [0, 1, 2], [5, 6, 7]] ∧
      ∃ dc lc sc, Forward_counts t0 = .ok (dc, lc, sc) ∧
        ∀ i : Nat, (i : Int) < to_int s0.layer_param_.batch_size →
          ∃ si ti sa, Forward_loop fs_demo t0.length dc lc sc i 0 s0 t0 = .ok (si, ti) ∧
            Forward_advance fs_demo t0.length si = .ok sa ∧
            ∀ g, g < t0.length → ∃ b, t[g]? = some b ∧
              b.row (group_count dc lc sc g) i
                = (group_blob sa g).row (group_count dc lc sc g) sa.current_row_ := by
  refine ⟨by decide, by decide,
   (group_count_gating fs_demo).2.1 (loaded (fresh_layer "bad.txt" 3) file_a 3)
     "mismatch.h5" file_mismatch (by decide) (by decide) (by decide),
   _, _, _, _, rfl, rfl, rfl, rfl, ?_⟩
  exact (group_count_gating fs_demo).2.2.2.2.2 _ _ _ _ (by decide) (by decide) rfl

/-- C10: for a non-empty file list whose files all load successfully with at
least one row, and every batch size, the setup returns and leaves the cursor
in range (`current_file_ < num_files_`, `current_row_ ≤` the row count of the
loaded data array, which is that of the file the index names); every returning
fill keeps the invariant, and so the range holds after any number of
consecutive fills. -/
theorem cursor_range_invariant (fs : FileSystem) (self : HDF5DataLayer) (top : List Blob)
    (fl : List String)
    (hman : manifest_files fs self.layer_param_.source = fl) (hne : fl ≠ [])
    (hfiles : files_load fs fl top.length) (hn : 1 ≤ top.length) :
    ∃ s t, LayerSetUp fs self top = .ok (s, t) ∧
      cursor_ok fs fl top.length s ∧ cursor_in_range s ∧
      (∀ s1 t1 s2 t2, t1.length = top.length → cursor_ok fs fl top.length s1 →
        Forward_cpu fs s1 t1 = .ok (s2, t2) →
        cursor_ok fs fl top.length s2 ∧ cursor_in_range s2) ∧
      (∀ k s2 t2, Forward_times fs k s t = .ok (s2, t2) →
        cursor_in_range s2 ∧ s2.num_files_ = fl.length ∧
        ∃ p, fl[s2.current_file_]? = some p ∧ s2.data_blob_ = path_blob fs p 0) := by
  obtain ⟨filename, rest, rfl⟩ := List.exists_cons_of_ne_nil hne
  have hp := LayerSetUp_filenames_files fs self
  rw [hman] at hp
  have hname : (LayerSetUp_filenames fs self).hdf_filenames_[0]? = some filename := by
    rw [hp.1]; simp
  have hload := load_listed fs (filename :: rest) top.length (LayerSetUp_filenames fs self)
    filename hfiles (List.mem_cons_self _ _)
  obtain ⟨t, ht, hlen, _⟩ := LayerSetUp_after_load fs self _ top filename hname hload hn
  have hc := (LayerSetUp_cursor fs self _ top t _ hman hfiles ht).1
  refine ⟨_, t, ht, hc, cursor_ok_in_range _ _ _ _ hc, ?_, ?_⟩
  · intro s1 t1 s2 t2 hl1 hc1 hf
    rw [← hl1] at hc1 hfiles hn
    have h2 := (Forward_cpu_cursor fs _ s1 s2 t1 t2 hc1 hn hfiles hf).1
    rw [hl1] at h2
    exact ⟨h2, cursor_ok_in_range _ _ _ _ h2⟩
  · intro k s2 t2 hk
    have h2 := Forward_times_cursor fs _ top.length hn hfiles k _ s2 t t2 hlen hc hk
    obtain ⟨p, hp1, hp2⟩ := h2.blobs
    exact ⟨cursor_ok_in_range _ _ _ _ h2, h2.files, p, hp1, hp2 0 (by omega)⟩

/-- C10, at the example manifest `list.txt` (two files of two rows) with two
groups and batch size 3. -/
theorem cursor_range_invariant_witness :
    manifest_files fs_demo "list.txt" = ["a.h5", "b.h5"] ∧
    files_load fs_demo ["a.h5", "b.h5"] 2 ∧
    ∃ s t, LayerSetUp fs_demo (fresh_layer "list.txt" 3) [Blob.empty, Blob.empty]
        = .ok (s, t) ∧
      cursor_ok fs_demo ["a.h5", "b.h5"] 2 s ∧ cursor_in_range s ∧
      (∀ s1 t1 s2 t2, t1.length = 2 → cursor_ok fs_demo ["a.h5", "b.h5"] 2 s1 →
        Forward_cpu fs_demo s1 t1 = .ok (s2, t2) →
        cursor_ok fs_demo ["a.h5", "b.h5"] 2 s2 ∧ cursor_in_range s2) ∧
      (∀ k s2 t2, Forward_times fs_demo k s t = .ok (s2, t2) →
        cursor_in_range s2 ∧ s2.num_files_ = 2 ∧
        ∃ p, ["a.h5", "b.h5"][s2.current_file_]? = some p ∧
          s2.data_blob_ = path_blob fs_demo p 0) :=
  ⟨by decide, by unfold files_load; decide,
   cursor_range_invariant fs_demo (fresh_layer "list.txt" 3) [Blob.empty, Blob.empty]
     ["a.h5", "b.h5"] (by decide) (by decide) (by unfold files_load; decide) (by decide)⟩

/-- C11, refuted as stated: one file of three rows and batch size 3. After the
setup and one fill (both returned) the row cursor equals the row count of the
loaded file, so it is not strictly below it between calls. And when the only
file of the manifest does not open, the setup returns with the row cursor 0
and the row count 0 of the empty data array, again not strictly below. -/
theorem strict_cursor_counterexample :
    (∃ s0 t0 s t,
      LayerSetUp fs_demo (fresh_layer "three.txt" 3) [Blob.empty] = .ok (s0, t0) ∧
      Forward_cpu fs_demo s0 t0 = .ok (s, t) ∧
      s.current_row_ = 3 ∧ s.data_blob_.num = 3 ∧ ¬ s.current_row_ < s.data_blob_.num) ∧
    (∃ s t,
      LayerSetUp fs_demo (fresh_layer "none.txt" 3) [Blob.empty] = .ok (s, t) ∧
      s.current_row_ = 0 ∧ s.data_blob_.num = 0 ∧ ¬ s.current_row_ < s.data_blob_.num) :=
  ⟨⟨_, _, _, _, rfl, rfl, rfl, rfl, by decide⟩, ⟨_, _, rfl, rfl, rfl, by decide⟩⟩

/-- C11 (amended): for a non-empty file list whose files all load successfully
with at least one row, and at least one output buffer. The setup returns with
the row cursor 0, strictly below the row count of the loaded file. Every
returning fill, made from a state with the cursor invariant (the one the setup
leaves), keeps that invariant and leaves the row cursor at most the row count,
the upper end included: the reset to 0 is made at the start of the next
iteration; the row cursor is at least 1 when the fill ran an iteration
(`batch_size ≥ 1` for the `const int` of line 112). So after the setup and any
number of consecutive fills the row cursor is at most the row count. Inside a
fill, once the exhaustion handling of an iteration is done, the row cursor is
strictly below the row count, so every copy reads an existing row. -/
theorem cursor_between_calls (fs : FileSystem) (self : HDF5DataLayer) (top : List Blob)
    (fl : List String)
    (hman : manifest_files fs self.layer_param_.source = fl) (hne : fl ≠ [])
    (hfiles : files_load fs fl top.length) (hn : 1 ≤ top.length) :
    ∃ s t, LayerSetUp fs self top = .ok (s, t) ∧
      s.current_row_ = 0 ∧ s.current_row_ < s.data_blob_.num ∧
      cursor_ok fs fl top.length s ∧
      (∀ s1 t1 s2 t2, t1.length = top.length → cursor_ok fs fl top.length s1 →
        Forward_cpu fs s1 t1 = .ok (s2, t2) →
        cursor_ok fs fl top.length s2 ∧ s2.current_row_ ≤ s2.data_blob_.num ∧
        (1 ≤ to_int s1.layer_param_.batch_size → 1 ≤ s2.current_row_)) ∧
      (∀ k s2 t2, Forward_times fs k s t = .ok (s2, t2) →
        s2.current_row_ ≤ s2.data_blob_.num) ∧
      (∀ s1, cursor_ok fs fl top.length s1 →
        ∃ sa, Forward_advance fs top.length s1 = .ok sa ∧
          sa.current_row_ < sa.data_blob_.num) := by
  obtain ⟨filename, rest, rfl⟩ := List.exists_cons_of_ne_nil hne
  have hp := LayerSetUp_filenames_files fs self
  rw [hman] at hp
  have hname : (LayerSetUp_filenames fs self).hdf_filenames_[0]? = some filename := by
    rw [hp.1]; simp
  have hload := load_listed fs (filename :: rest) top.length (LayerSetUp_filenames fs self)
    filename hfiles (List.mem_cons_self _ _)
  obtain ⟨t, ht, hlen, _⟩ := LayerSetUp_after_load fs self _ top filename hname hload hn
  obtain ⟨hc, _, hcr, _⟩ := LayerSetUp_cursor fs self _ top t _ hman hfiles ht
  obtain ⟨_, _, _, _, hpos, _⟩ := cursor_ok_data fs _ top.length _ hc hn hfiles
  refine ⟨_, t, ht, hcr, ?_, hc, ?_, ?_, ?_⟩
  · rw [hcr]
    show ((0 : Nat) : Int) < _
    omega
  · intro s1 t1 s2 t2 hl1 hc1 hf
    rw [← hl1] at hc1 hfiles hn
    have h2 := (Forward_cpu_cursor fs _ s1 s2 t1 t2 hc1 hn hfiles hf).1
    refine ⟨?_, h2.row_le, fun hB => Forward_cpu_cursor_pos fs s1 s2 t1 t2 hB hf⟩
    rw [hl1] at h2
    exact h2
  · intro k s2 t2 hk
    exact (Forward_times_cursor fs _ top.length hn hfiles k _ s2 t t2 hlen hc hk).row_le
  · intro s1 hc1
    obtain ⟨sa, ha, _, hrow, _⟩ := Forward_advance_cursor fs _ top.length s1 hc1 hn hfiles
    exact ⟨sa, ha, hrow⟩

/-- C11 (amended), at the example manifest `three.txt` (one file of three rows)
with batch size 3. -/
theorem cursor_between_calls_witness :
    manifest_files fs_demo "three.txt" = ["c.h5"] ∧ files_load fs_demo ["c.h5"] 1 ∧
    ∃ s t, LayerSetUp fs_demo (fresh_layer "three.txt" 3) [Blob.empty] = .ok (s, t) ∧
      s.current_row_ = 0 ∧ s.current_row_ < s.data_blob_.num ∧
      cursor_ok fs_demo ["c.h5"] 1 s ∧
      (∀ s1 t1 s2 t2, t1.length = 1 → cursor_ok fs_demo ["c.h5"] 1 s1 →
        Forward_cpu fs_demo s1 t1 = .ok (s2, t2) →
        cursor_ok fs_demo ["c.h5"] 1 s2 ∧ s2.current_row_ ≤ s2.data_blob_.num ∧
        (1 ≤ to_int s1.layer_param_.batch_size → 1 ≤ s2.current_row_)) ∧
      (∀ k s2 t2, Forward_times fs_demo k s t = .ok (s2, t2) →
        s2.current_row_ ≤ s2.data_blob_.num) ∧
      (∀ s1, cursor_ok fs_demo ["c.h5"] 1 s1 →
        ∃ sa, Forward_advance fs_demo 1 s1 = .ok sa ∧
          sa.current_row_ < sa.data_blob_.num) :=
  ⟨by decide, by unfold files_load; decide,
   cursor_between_calls fs_demo (fresh_layer "three.txt" 3) [Blob.empty] ["c.h5"]
     (by decide) (by decide) (by unfold files_load; decide) (by decide)⟩

/-- C12: idempotent reshape. When a setup has returned, a second setup with the
same inputs (the same file system and parameters, run on the layer and the
output buffers the first one left) returns too, with the same output buffer
shapes; indeed it leaves the same layer and the same buffers. Moreover, when
the first file of the manifest opens, the shapes of the requested buffers are
the same for every layer state and every buffer list of that length the setup
is run on: they do not depend on the state an earlier setup left. -/
theorem setup_idempotent (fs : FileSystem) (self s1 : HDF5DataLayer) (top t1 : List Blob)
    (h : LayerSetUp fs self top = .ok (s1, t1)) :
    (∃ s2 t2, LayerSetUp fs s1 t1 = .ok (s2, t2) ∧
      t2.map Blob.shape = t1.map Blob.shape ∧ s2 = s1 ∧ t2 = t1) ∧
    (∀ self2 top2 s2 t2 filename file, self2.layer_param_ = self.layer_param_ →
      top2.length = top.length →
      (manifest_files fs self.layer_param_.source)[0]? = some filename →
      fs.H5Fopen filename = some file →
      LayerSetUp fs self2 top2 = .ok (s2, t2) →
      ∀ g, g < top.length → g < 3 →
        (t2[g]?).map Blob.shape = (t1[g]?).map Blob.shape) := by
  refine ⟨⟨s1, t1, LayerSetUp_fixed fs self s1 top t1 h, rfl, rfl, rfl⟩, ?_⟩
  intro self2 top2 s2 t2 filename file hlp hlen hfirst hopen h2 g hg hg3
  rw [LayerSetUp_shapes_opened fs self s1 top t1 filename file h hfirst hopen g hg hg3]
  rw [← hlp] at hfirst
  rw [LayerSetUp_shapes_opened fs self2 s2 top2 t2 filename file h2 hfirst hopen g
    (by omega) hg3, hlp]

/-- C12, at the example manifest `list.txt` with two output buffers and batch
size 3: the second setup returns what the first returned, with both buffers
shaped `(3, 1, 1, 1)`. -/
theorem setup_idempotent_witness :
    ∃ s1 t1, LayerSetUp fs_demo (fresh_layer "list.txt" 3) [Blob.empty, Blob.empty]
        = .ok (s1, t1) ∧
      t1.map Blob.shape = [(3, 1, 1, 1), (3, 1, 1, 1)] ∧
      ∃ s2 t2, LayerSetUp fs_demo s1 t1 = .ok (s2, t2) ∧
        t2.map Blob.shape = t1.map Blob.shape ∧ s2 = s1 ∧ t2 = t1 :=
  ⟨_, _, rfl, rfl,
   (setup_idempotent fs_demo (fresh_layer "list.txt" 3) _ [Blob.empty, Blob.empty] _ rfl).1⟩

/-- C13: rank bounds, for a file that opens. A returning load has found the
rank of the data group in `[2, 4]` (with at least one requested group), of the
label group in `[1, 2]` (with at least two) and of the sample_weight group in
`[1, 2]` (with three). A requested group whose rank is outside its bound makes
the load fatal. A rank inside the bound is never rejected for its rank: with
every requested rank in its bound, the row counts agreeing and the file
closing, the load succeeds. -/
theorem rank_bounds (fs : FileSystem) (self : HDF5DataLayer) (filename : String) (n : Nat)
    (file : H5File) (hopen : fs.H5Fopen filename = some file) :
    (∀ s, LoadHDF5FileData fs self filename n = .ok s →
      (1 ≤ n → ∃ ds, file.datasets.lookup "data" = some ds ∧
        2 ≤ ds.dims.length ∧ ds.dims.length ≤ 4) ∧
      (2 ≤ n → ∃ ds, file.datasets.lookup "label" = some ds ∧
        1 ≤ ds.dims.length ∧ ds.dims.length ≤ 2) ∧
      (3 ≤ n → ∃ ds, file.datasets.lookup "sample_weight" = some ds ∧
        1 ≤ ds.dims.length ∧ ds.dims.length ≤ 2)) ∧
    (∀ ds, 1 ≤ n → file.datasets.lookup "data" = some ds →
      (ds.dims.length < 2 ∨ 4 < ds.dims.length) →
      LoadHDF5FileData fs self filename n = .error .fatal) ∧
    (∀ ds, 2 ≤ n → file.datasets.lookup "label" = some ds →
      (ds.dims.length < 1 ∨ 2 < ds.dims.length) →
      LoadHDF5FileData fs self filename n = .error .fatal) ∧
    (∀ ds, 3 ≤ n → file.datasets.lookup "sample_weight" = some ds →
      (ds.dims.length < 1 ∨ 2 < ds.dims.length) →
      LoadHDF5FileData fs self filename n = .error .fatal) ∧
    ((1 ≤ n → group_rank_ok file "data" 2 4 = true) →
      (2 ≤ n → group_rank_ok file "label" 1 2 = true) →
      (3 ≤ n → group_rank_ok file "sample_weight" 1 2 = true) →
      (2 ≤ n → group_rows file "data" = group_rows file "label") →
      (3 ≤ n → group_rows file "data" = group_rows file "sample_weight") →
      file.close_ok = true →
      LoadHDF5FileData fs self filename n = .ok (loaded self file n)) := by
  have hfatal : loads_ok file n = false → LoadHDF5FileData fs self filename n
      = .error .fatal := by
    intro hf
    rw [LoadHDF5FileData_opened fs self filename n file hopen, hf]
    rfl
  refine ⟨?_, ?_, ?_, ?_, ?_⟩
  · intro s hs
    rw [LoadHDF5FileData_opened fs self filename n file hopen] at hs
    split at hs
    · rename_i hok
      unfold loads_ok at hok
      simp only [Bool.and_eq_true, Bool.or_eq_true, decide_eq_true_eq] at hok
      refine ⟨fun h1 => ?_, fun h2 => ?_, fun h3 => ?_⟩
      · rcases hok.1.1.1 with h | h
        · omega
        · exact (group_rank_ok_iff _ _ _ _).1 h
      · rcases hok.1.1.2 with h | h
        · omega
        · exact (group_rank_ok_iff _ _ _ _).1 h.1
      · rcases hok.1.2 with h | h
        · omega
        · exact (group_rank_ok_iff _ _ _ _).1 h.1
    · cases hs
  · intro ds h1 hl hout
    apply hfatal
    have hr := group_rank_ok_false file "data" 2 4 ds hl hout
    have hn : ¬ n < 1 := by omega
    simp [loads_ok, hr, hn]
  · intro ds h2 hl hout
    apply hfatal
    have hr := group_rank_ok_false file "label" 1 2 ds hl hout
    have hn : ¬ n < 2 := by omega
    simp [loads_ok, hr, hn]
  · intro ds h3 hl hout
    apply hfatal
    have hr := group_rank_ok_false file "sample_weight" 1 2 ds hl hout
    have hn : ¬ n < 3 := by omega
    simp [loads_ok, hr, hn]
  · intro hd hl hw hrl hrw hc
    rw [LoadHDF5FileData_opened fs self filename n file hopen]
    have hok : loads_ok file n = true := by
      unfold loads_ok
      simp only [Bool.and_eq_true, Bool.or_eq_true, decide_eq_true_eq]
      refine ⟨⟨⟨?_, ?_⟩, ?_⟩, hc⟩
      · by_cases h : n < 1
        · exact Or.inl h
        · exact Or.inr (hd (by omega))
      · by_cases h : n < 2
        · exact Or.inl h
        · exact Or.inr ⟨hl (by omega), hrl (by omega)⟩
      · by_cases h : n < 3
        · exact Or.inl h
        · exact Or.inr ⟨hw (by omega), hrw (by omega)⟩
    rw [if_pos hok]

/-- C13, at the example file whose data group has rank 1: the load is fatal;
and at `a.h5`, whose three groups have ranks 2, 1, 1: the load succeeds. -/
theorem rank_bounds_witness :
    fs_demo.H5Fopen "flat.h5" = some file_flat ∧
    LoadHDF5FileData fs_demo (fresh_layer "list.txt" 3) "flat.h5" 1 = .error .fatal ∧
    fs_demo.H5Fopen "a.h5" = some file_a ∧
    LoadHDF5FileData fs_demo (fresh_layer "list.txt" 3) "a.h5" 3
      = .ok (loaded (fresh_layer "list.txt" 3) file_a 3) :=
  ⟨by decide,
   (rank_bounds fs_demo (fresh_layer "list.txt" 3) "flat.h5" 1 file_flat (by decide)).2.1
     ⟨[4], [1, 2, 3, 4]⟩ (by decide) (by decide) (by decide),
   by decide,
   (rank_bounds fs_demo (fresh_layer "list.txt" 3) "a.h5" 3 file_a (by decide)).2.2.2.2
     (fun _ => by decide) (fun _ => by decide) (fun _ => by decide) (fun _ => by decide)
     (fun _ => by decide) (by decide)⟩

/-- C14: single-file reuse. When the file list holds exactly one file, a fill
(of any batch size, from any cursor state, on any output buffers) does not
reach the loader: its outcome is the same on every file system, whatever the
files hold or whether they open. A returning fill leaves the file index and
the loaded arrays unchanged, and the advance on an exhausted file only resets
the row cursor to 0. -/
theorem single_file_reuse (fs : FileSystem) (s : HDF5DataLayer) (t : List Blob)
    (hone : s.hdf_filenames_.length = 1) (hN : s.num_files_ = s.hdf_filenames_.length) :
    (∀ fs2, Forward_cpu fs2 s t = Forward_cpu fs s t) ∧
    (∀ s2 t2, Forward_cpu fs s t = .ok (s2, t2) →
      s2.current_file_ = s.current_file_ ∧ s2.data_blob_ = s.data_blob_ ∧
      s2.label_blob_ = s.label_blob_ ∧
      s2.sample_weight_blob_ = s.sample_weight_blob_) ∧
    (∀ n, s.current_row_ = s.data_blob_.num →
      Forward_advance fs n s = .ok { s with current_row_ := 0 }) := by
  have hN1 : ¬ 1 < s.num_files_ := by omega
  refine ⟨fun fs2 => ?_, fun s2 t2 h => ?_, fun n hrow => ?_⟩
  · unfold Forward_cpu
    cases Forward_counts t with
    | error e => rfl
    | ok c =>
      obtain ⟨dc, lc, sc⟩ := c
      exact (Forward_loop_one_file fs fs2 _ dc lc sc _ 0 s t hN1).1
  · unfold Forward_cpu at h
    split at h
    · cases h
    · have hk := (Forward_loop_one_file fs fs _ _ _ _ _ 0 s t hN1).2 s2 t2 h
      exact ⟨hk.1, hk.2.1, hk.2.2.1, hk.2.2.2.1⟩
  · exact Forward_advance_single fs n s hrow hN1

/-- C14, at the example manifest `three.txt` (one file of three rows) with batch
size 5: the fill gives the same outcome on a file system on which nothing
opens, and returns the rows 0, 1, 2, 0, 1 with the file index and the data
array unchanged. -/
theorem single_file_reuse_witness :
    manifest_files fs_demo "three.txt" = ["c.h5"] ∧
    ∃ s0 t0, LayerSetUp fs_demo (fresh_layer "three.txt" 5) [Blob.empty] = .ok (s0, t0) ∧
      s0.hdf_filenames_.length = 1 ∧
      Forward_cpu ⟨fun _ => none, fun _ => none⟩ s0 t0 = Forward_cpu fs_demo s0 t0 ∧
      ∃ s t, Forward_cpu fs_demo s0 t0 = .ok (s, t) ∧
        s.current_file_ = s0.current_file_ ∧ s.data_blob_ = s0.data_blob_ ∧
        t.map Blob.data = [[40, 41, 42, 40, 41]] :=
  by
  refine ⟨by decide, _, _, rfl, rfl, ?_, _, _, rfl, rfl, rfl, rfl⟩
  refine (single_file_reuse fs_demo _ _ ?_ ?_).1 _
  · rfl
  · rfl

/-- C15: per-row shape drift is undetected. The manifest `drift.txt` names
`a.h5` (two rows of one element) and `wide.h5` (two rows of two elements); both
load successfully. The setup and a fill of four rows return without any error,
and the fill copies from `wide.h5` with the per-row count 1 of `a.h5`: output
row 3, read as row 1 of `wide.h5`, holds `[21]`, an element of row 0, where
row 1 of `wide.h5` is `[22, 23]`. In the other order (`drift2.txt`, per-row
count 2) nothing is raised either: three rows are returned, the third made of
both rows of `a.h5`, and the fourth read lies past the end of the array of
`a.h5`, which is the undefined outcome and not a fatal error. -/
theorem shape_drift_undetected :
    (manifest_files fs_demo "drift.txt" = ["a.h5", "wide.h5"] ∧
      files_load fs_demo ["a.h5", "wide.h5"] 1 ∧
      files_well_formed fs_demo ["a.h5", "wide.h5"] 1 ∧
      (path_blob fs_demo "a.h5" 0).per_row = 1 ∧
      (path_blob fs_demo "wide.h5" 0).per_row = 2 ∧
      ∃ s0 t0 s t,
        LayerSetUp fs_demo (fresh_layer "drift.txt" 4) [Blob.empty] = .ok (s0, t0) ∧
        Forward_counts t0 = .ok (1, 0, 0) ∧
        Forward_cpu fs_demo s0 t0 = .ok (s, t) ∧
        s.data_blob_ = path_blob fs_demo "wide.h5" 0 ∧
        t.map Blob.data = [[10, 11, 20, 21]] ∧
        t.map (fun b => b.row 1 3) = [(path_blob fs_demo "wide.h5" 0).row 1 1] ∧
        (path_blob fs_demo "wide.h5" 0).row 1 1 = [21] ∧
        (path_blob fs_demo "wide.h5" 0).rows = [[20, 21], [22, 23]]) ∧
    (manifest_files fs_demo "drift2.txt" = ["wide.h5", "a.h5"] ∧
      files_load fs_demo ["wide.h5", "a.h5"] 1 ∧
      (∃ s0 t0 s t,
        LayerSetUp fs_demo (fresh_layer "drift2.txt" 3) [Blob.empty] = .ok (s0, t0) ∧
        Forward_counts t0 = .ok (2, 0, 0) ∧
        Forward_cpu fs_demo s0 t0 = .ok (s, t) ∧
        s.data_blob_ = path_blob fs_demo "a.h5" 0 ∧ s.current_row_ = 1 ∧
        t.map Blob.data = [[20, 21, 22, 23, 10, 11]] ∧
        ¬ copy_in_bounds 2 s.current_row_ 3 s.data_blob_ ⟨4, 2, 1, 1, List.replicate 8 0⟩) ∧
      ∃ s0 t0,
        LayerSetUp fs_demo (fresh_layer "drift2.txt" 4) [Blob.empty] = .ok (s0, t0) ∧
        Forward_cpu fs_demo s0 t0 = .error .undefined) :=
  ⟨⟨by decide, by unfold files_load; decide, by unfold files_well_formed; decide,
    by decide, by decide, _, _, _, _, rfl, rfl, rfl, rfl, rfl, rfl, rfl, rfl⟩,
   by decide, by unfold files_load; decide,
   ⟨_, _, _, _, rfl, rfl, rfl, rfl, rfl, rfl, by decide⟩,
   _, _, rfl, rfl⟩

end caffe
